import Mathlib

/-!
Verification development for the claude-in-android automation core:
tool registry and dispatcher, batch executor, flow execution engine,
action-hint generation and the diff-mode screenshot decision logic.
The definitions below are shallow embeddings of the TypeScript sources
(`src/tools/registry.ts` alias version, `src/index.ts` dispatcher,
`src/tools/flow-tools.ts`, `src/tools/context.ts`,
`src/tools/screenshot-tools.ts`, `src/tools/interaction-tools.ts`).
-/

namespace ClaudeMobile

/-! ## Argument maps (JS object literals, insertion-ordered) -/

/-- A JavaScript value as it appears in a tool-argument map. -/
inductive AVal where
  | str (s : String)
  | num (n : Int)
  | boolean (b : Bool)
  | undef
  deriving DecidableEq, Repr

/-- An argument map: an insertion-ordered list of key/value pairs
(JS objects have unique keys; lookup returns the first match). -/
abbrev Args := List (String × AVal)

/-- Lookup of a key in an argument map. -/
def lookupArg (a : Args) (k : String) : Option AVal :=
  match a with
  | [] => none
  | (k', v) :: rest => if k' = k then some v else lookupArg rest k

/-- JS `obj[k] = v` / object-literal override semantics: if the key is
present its value is replaced in place, otherwise the pair is appended. -/
def objSet (a : Args) (k : String) (v : AVal) : Args :=
  if a.any (fun p => p.1 = k) then
    a.map (fun p => if p.1 = k then (k, v) else p)
  else
    a ++ [(k, v)]

/-- Injection of an optional platform string into an argument value
(`platform` may be JS `undefined` when no target is active). -/
def pval : Option String → AVal
  | some s => AVal.str s
  | none => AVal.undef

/-! ## Substring search (JS `String.prototype.includes`) -/

/-- `listIsInfix pat l` is true when `pat` occurs contiguously in `l`. -/
def listIsInfix (pat l : List Char) : Bool :=
  l.tails.any (fun t => pat.isPrefixOf t)

/-- Case-sensitive substring test, as in JS `s.includes(pat)`. -/
def strIncludes (s pat : String) : Bool :=
  listIsInfix pat.toList s.toList

/-! ## Tool registry (`src/tools/registry.ts`, alias-capable version) -/

/-- Handlers are identified abstractly; the registry only stores and
returns them, it never inspects them. -/
abbrev HandlerId := Nat

/-- Registry state: the canonical `toolMap` and the `aliasMap`
(`alias → canonical name`), both JS `Map`s in insertion order. -/
structure Registry where
  toolMap : List (String × HandlerId)
  aliasMap : List (String × String)
  deriving DecidableEq, Repr

/-- JS `Map.set`: replaces the value in place when the key exists,
appends otherwise. -/
def mapSet (m : List (String × α)) (k : String) (v : α) : List (String × α) :=
  if m.any (fun p => p.1 = k) then
    m.map (fun p => if p.1 = k then (k, v) else p)
  else
    m ++ [(k, v)]

/-- JS `Map.get`. -/
def mapGet (m : List (String × α)) (k : String) : Option α :=
  match m with
  | [] => none
  | (k', v) :: rest => if k' = k then some v else mapGet rest k

/-- `registerTools(defs)`: `toolMap.set(def.tool.name, def)` for each
definition, in order (last write for a name wins). -/
def registerTools (r : Registry) (defs : List (String × HandlerId)) : Registry :=
  { r with toolMap := defs.foldl (fun m d => mapSet m d.1 d.2) r.toolMap }

/-- `registerAliases(aliases)`: `aliasMap.set(alias, canonical)` for each
entry. -/
def registerAliases (r : Registry) (aliases : List (String × String)) : Registry :=
  { r with aliasMap := aliases.foldl (fun m p => mapSet m p.1 p.2) r.aliasMap }

/-- `getTools()`: the tool objects of the canonical `toolMap` values, in
insertion order.  Only the tool names matter here, so the embedding
returns the list of canonical names; aliases never appear. -/
def getTools (r : Registry) : List String :=
  r.toolMap.map (fun p => p.1)

/-- `getHandler(name)`: resolve against `toolMap` first, then via
`aliasMap` (whose target is looked up back in `toolMap`). -/
def getHandler (r : Registry) (name : String) : Option HandlerId :=
  match mapGet r.toolMap name with
  | some h => some h
  | none =>
    match mapGet r.aliasMap name with
    | some canonical => mapGet r.toolMap canonical
    | none => none

/-! ## Dispatcher (`handleTool` in `src/index.ts`) -/

/-- `MAX_RECURSION_DEPTH` from `src/tools/context.ts`. -/
def MAX_RECURSION_DEPTH : Nat := 3

/-- Outcome of one `handleTool` call: either a thrown `Error` (carrying
its message) or the invocation of a resolved handler with the given
arguments and depth. -/
inductive DispatchResult where
  | error (message : String)
  | invoked (handler : HandlerId) (args : Args) (depth : Nat)
  deriving DecidableEq, Repr

/-- The recursion-limit error message thrown by the dispatcher. -/
def recursionErrorMessage : String :=
  "Maximum recursion depth (" ++ toString MAX_RECURSION_DEPTH ++
  ") exceeded. Nested batch_commands/run_flow calls are limited to prevent stack overflow."

/-- `handleTool(name, args, depth)` from `src/index.ts`: fails when
`depth > MAX_RECURSION_DEPTH`, then resolves the handler through the
registry and invokes it with the same `depth`. -/
def handleTool (r : Registry) (name : String) (args : Args) (depth : Nat) : DispatchResult :=
  if depth > MAX_RECURSION_DEPTH then
    DispatchResult.error recursionErrorMessage
  else
    match getHandler r name with
    | none => DispatchResult.error ("Unknown tool: " ++ name)
    | some h => DispatchResult.invoked h args depth

/-! ## Tool errors

Handlers signal failure by throwing.  The flow/batch layer only ever
inspects (a) the error `message` string and (b) whether the error is an
instance of `DeviceNotFoundError`, `DeviceOfflineError` or
`AdbNotInstalledError` (the adapter-level backend-unavailable classes,
declared in `src/errors.ts`), so an error is embedded as a message
tagged with that class membership. -/

inductive ToolError where
  /-- `DeviceNotFoundError | DeviceOfflineError | AdbNotInstalledError` -/
  | backendUnavailable (message : String)
  /-- any other thrown `Error` -/
  | failure (message : String)
  deriving DecidableEq, Repr

/-- `error.message`. -/
def ToolError.message : ToolError → String
  | .backendUnavailable m => m
  | .failure m => m

/-- `error instanceof DeviceNotFoundError || error instanceof
DeviceOfflineError || error instanceof AdbNotInstalledError`. -/
def ToolError.isBackendUnavailable : ToolError → Bool
  | .backendUnavailable _ => true
  | .failure _ => false

/-- `error.message?.includes("not found") ||
error.message?.includes("No element")` (flow-tools step catch). -/
def isNotFoundMessage (m : String) : Bool :=
  strIncludes m "not found" || strIncludes m "No element"

/-! ## UI elements and text search -/

/-- A normalized UI element.  The flow engine's repeat-condition check
only consults the element's `text` field (via `findElements` with a
`{ text }` criterion), so only that field is carried here. -/
structure UiElement where
  text : String
  deriving DecidableEq, Repr

/-- ASCII lowering of one character (the case folding relevant to the
element searches modelled here). -/
def lowerChar (c : Char) : Char :=
  if 65 ≤ c.toNat ∧ c.toNat ≤ 90 then Char.ofNat (c.toNat + 32) else c

/-- Lower-case a string character-wise. -/
def lowerStr (s : String) : String := ⟨s.data.map lowerChar⟩

/-- Modelled from the spec: `findElements` of `src/adb/ui-parser.ts` is
not in the sources; §4.2 specifies it as a case-insensitive substring
match over the relevant field, returning all matches in document order.
This is its restriction to a `{ text: t }` criterion. -/
def findElementsText (es : List UiElement) (t : String) : List UiElement :=
  es.filter (fun e => strIncludes (lowerStr e.text) (lowerStr t))

/-! ## Dispatch traces

Composite tools (batch, flow) re-enter the dispatcher via
`ctx.handleTool(name, args, depth + 1)`.  Each such re-entry is recorded
as a `Call`; the sequence of outcomes is supplied by an oracle indexed
by the number of calls made so far, so repeated attempts of the same
tool may observe different outcomes. -/

structure Call where
  name : String
  args : Args
  depth : Nat
  deriving DecidableEq, Repr

/-! ## Batch executor (`batch_commands` in `src/tools/flow-tools.ts`) -/

/-- One entry of the `commands` array. -/
structure BatchCmd where
  name : String
  /-- `cmd.arguments`, optional (`?? {}` at the call site). -/
  arguments : Option Args
  deriving DecidableEq, Repr

/-- One element of the handler's `results` accumulator. -/
structure BatchEntry where
  command : String
  success : Bool
  result : String
  deriving DecidableEq, Repr

/-- Arguments of `batch_commands`. -/
structure BatchArgs where
  commands : List BatchCmd
  /-- `stopOnError`, absent means the default. -/
  stopOnError : Option Bool
  deriving DecidableEq, Repr

/-- The command loop of `batch_commands`: dispatch each command in
order, record success or failure, and `break` on failure when
`stopOnError` is set.  `dispatch n` is the outcome of the `n`-th
re-entry into the dispatcher. -/
def runBatchCmds (dispatch : Nat → Except ToolError String) (depth : Nat)
    (stopOnError : Bool) : List BatchCmd → Nat → List BatchEntry × List Call
  | [], _ => ([], [])
  | cmd :: rest, n =>
    let call : Call := ⟨cmd.name, cmd.arguments.getD [], depth + 1⟩
    match dispatch n with
    | .ok text =>
      let (entries, calls) := runBatchCmds dispatch depth stopOnError rest (n + 1)
      (⟨cmd.name, true, text⟩ :: entries, call :: calls)
    | .error e =>
      if stopOnError then
        ([⟨cmd.name, false, e.message⟩], [call])
      else
        let (entries, calls) := runBatchCmds dispatch depth stopOnError rest (n + 1)
        (⟨cmd.name, false, e.message⟩ :: entries, call :: calls)

/-- The textual report of `batch_commands`. -/
def batchReport (entries : List BatchEntry) (commandCount : Nat) : String :=
  let output := String.intercalate "\n"
    ((entries.enum.map (fun p =>
      toString (p.1 + 1) ++ ". " ++ p.2.command ++ ": " ++
      (if p.2.success then "OK" else "ERROR") ++ " — " ++ p.2.result)))
  let failed := (entries.filter (fun r => !r.success)).length
  let summary :=
    if failed > 0 then
      "Batch: " ++ toString entries.length ++ "/" ++ toString commandCount ++
      " executed, " ++ toString failed ++ " failed"
    else
      "Batch: " ++ toString entries.length ++ " commands OK"
  summary ++ "\n\n" ++ output

/-- The `batch_commands` handler: depth guard, empty-input check, then
the sequential command loop and the report.  Returns the thrown error or
the response text, together with the `results` accumulator and the trace
of dispatcher re-entries. -/
def batchCommands (dispatch : Nat → Except ToolError String)
    (args : BatchArgs) (depth : Nat) :
    Except String String × List BatchEntry × List Call :=
  if depth > MAX_RECURSION_DEPTH then
    (Except.error recursionErrorMessage, [], [])
  else
    let stopOnError := args.stopOnError ≠ some false
    if args.commands.isEmpty then
      (Except.ok "No commands provided", [], [])
    else
      let (entries, calls) := runBatchCmds dispatch depth stopOnError args.commands 0
      (Except.ok (batchReport entries args.commands.length), entries, calls)

/-! ## Action-hint generation (`generateActionHints` in
`src/tools/context.ts`)

The UI diff (`diffUiElements`) and suggestion (`suggestNextActions`)
heuristics live in `src/adb/ui-parser.ts` and only shape the happy-path
message, so they are taken as parameters; the hierarchy re-capture is an
`Except` carrying either the parsed elements or the thrown error's
message. -/

/-- Result of `diffUiElements(before, after)`. -/
structure UiDiffResult where
  appeared : List String
  disappeared : List String
  beforeCount : Nat
  afterCount : Nat
  screenChanged : Bool
  deriving DecidableEq, Repr

/-- Whether `generateActionHints` re-captures the hierarchy for this
platform (it does for `android`, `ios` and `desktop`; for any other
platform `afterElements` stays empty and no backend call is made). -/
def hintsCapturePlatform (p : String) : Bool :=
  p = "android" || p = "ios" || p = "desktop"

/-- Output of `generateActionHints`: the hint text appended to the
primary result, and the per-platform element-cache update (`none` when
the function returned before `setCachedElements`). -/
structure HintsOutput where
  text : String
  newCache : Option (List UiElement)
  deriving DecidableEq, Repr

/-- `generateActionHints(platform)`:  resolve the platform
(`platform ?? getCurrentPlatform() ?? "android"`), re-capture and parse
the hierarchy, degrade to a textual unavailable message on failure,
otherwise diff against the cached pre-action elements and render the
hint block. -/
def generateActionHints (platform : Option String) (currentDefault : Option String)
    (beforeElements : List UiElement)
    (capture : Except String (List UiElement))
    (diffFn : List UiElement → List UiElement → UiDiffResult)
    (suggestFn : List UiElement → List String) : HintsOutput :=
  let currentPlatform := (platform.orElse (fun _ => currentDefault)).getD "android"
  let afterResult : Except String (List UiElement) :=
    if hintsCapturePlatform currentPlatform then capture else Except.ok []
  match afterResult with
  | .error reason =>
    ⟨"\n--- Hints ---\nUnable to fetch UI state for hints: " ++ reason, none⟩
  | .ok afterElements =>
    if beforeElements.length = 0 && afterElements.length = 0 then
      ⟨"\n--- Hints ---\nNo UI elements detected.", some afterElements⟩
    else
      let diff := diffFn beforeElements afterElements
      let suggestions := suggestFn afterElements
      let lines := ["\n--- Hints ---"]
      let lines := if diff.screenChanged then
        lines ++ ["Screen changed (new activity or major UI update)"] else lines
      let lines := if diff.appeared.length > 0 then
        lines ++ ["New: " ++ String.intercalate ", " diff.appeared] else lines
      let lines := if diff.disappeared.length > 0 then
        lines ++ ["Gone: " ++ String.intercalate ", " diff.disappeared] else lines
      let lines := lines ++
        ["Elements: " ++ toString diff.beforeCount ++ " → " ++ toString diff.afterCount]
      let lines := if suggestions.length > 0 then
        lines ++ ["Suggested: " ++ String.intercalate "; " suggestions] else lines
      ⟨String.intercalate "\n" lines, some afterElements⟩

/-- The tail of the `tap` handler (`src/tools/interaction-tools.ts`):
after the tap succeeds, the response text is the success line,
extended with the hint text when `hints === true`. -/
def tapResponseText (x y : Int) (hints : Bool) (hintText : String) : String :=
  let base := "Tapped at (" ++ toString x ++ ", " ++ toString y ++ ")"
  if hints then base ++ hintText else base

/-! ## Diff-mode screenshot (`screenshot` handler in
`src/tools/screenshot-tools.ts`)

Raw image buffers and the crop operation are symbolic: the response
records which buffer (full capture or a crop of it) is shipped.
`compareScreenshots` is an external image routine, so its result — a
change percentage and an optional changed region — is an input. -/

/-- An axis-aligned region as produced by `compareScreenshots`. -/
structure Region where
  x : Int
  y : Int
  width : Int
  height : Int
  deriving DecidableEq, Repr

/-- Result of `compareScreenshots(prev, next, threshold)`. -/
structure ScreenDiff where
  changePercent : ℚ
  changedRegion : Option Region
  deriving DecidableEq, Repr

/-- A screenshot buffer, tracked symbolically through the handler:
either the fresh capture or `cropRegion(buffer, region, padding)`. -/
inductive Buffer where
  | captured (id : Nat)
  | cropped (b : Buffer) (r : Region) (padding : Nat)
  deriving DecidableEq, Repr

/-- A `screenshot` response: text-only, or an image (of the given
buffer, possibly compressed downstream) with accompanying text. -/
inductive ShotResponse where
  | textOnly (text : String)
  | image (buf : Buffer) (text : String)
  deriving DecidableEq, Repr

/-- The diff-mode branch of the `screenshot` handler, after the fresh
capture `pngBuffer` has been taken and the per-platform cache read:
no previous capture returns the full frame; otherwise the change
percentage is tiered at 5 and 80, with the changed region cropped
(padding 20) in the middle tier. -/
def screenshotDiffBranch (prevBuffer : Option Buffer) (pngBuffer : Buffer)
    (diffOf : Buffer → Buffer → ScreenDiff) : ShotResponse :=
  match prevBuffer with
  | none => ShotResponse.image pngBuffer "First screenshot (no previous to diff against)"
  | some prev =>
    let diff := diffOf prev pngBuffer
    if diff.changePercent < 5 then
      ShotResponse.textOnly ("Screen unchanged (" ++ toString diff.changePercent ++ "% diff)")
    else
      -- `if (diff.changePercent >= 80 || !diff.changedRegion)` → full frame;
      -- otherwise `diff.changedRegion` is present and the crop is returned.
      match diff.changedRegion with
      | none =>
        ShotResponse.image pngBuffer
          ("Screen changed significantly (" ++ toString diff.changePercent ++ "% diff) — full screenshot")
      | some region =>
        if diff.changePercent ≥ 80 then
          ShotResponse.image pngBuffer
            ("Screen changed significantly (" ++ toString diff.changePercent ++ "% diff) — full screenshot")
        else
          ShotResponse.image (Buffer.cropped pngBuffer region 20)
            ("Changed region (" ++ toString diff.changePercent ++ "% diff) at (" ++
             toString region.x ++ ", " ++ toString region.y ++ ") " ++
             toString region.width ++ "x" ++ toString region.height)

/-! ## Flow execution engine (`run_flow` in `src/tools/flow-tools.ts`)

The handler is an interpreter over an oracle world: `dispatch n` is the
outcome of the `n`-th re-entry into the dispatcher made during this
flow, `capture n` the outcome of the `n`-th `getElementsForPlatform`
call, and `now n` the value of the `n`-th `Date.now()` reading.
`setTimeout` sleeps have no observable effect beyond the passage of
time, which the `now` oracle already accounts for. -/

/-- Flow Engine constants (`src/tools/flow-tools.ts`). -/
def FLOW_ALLOWED_ACTIONS : List String :=
  ["tap", "swipe", "input_text", "press_key", "wait", "wait_for_element",
   "screenshot", "analyze_screen", "assert_visible", "assert_not_exists",
   "find_and_tap", "find_element", "open_url"]

def FLOW_MAX_STEPS : Nat := 20

def FLOW_MAX_DURATION : Int := 60000

def FLOW_MAX_REPEAT : Int := 10

/-- `if_not_found` policy values. -/
inductive IfNotFound where
  | skip
  | scrollDown
  | scrollUp
  | fail
  deriving DecidableEq, Repr

/-- The JS string of an `if_not_found` value (used in messages). -/
def IfNotFound.jsName : IfNotFound → String
  | .skip => "skip"
  | .scrollDown => "scroll_down"
  | .scrollUp => "scroll_up"
  | .fail => "fail"

/-- `on_error` policy values. -/
inductive OnError where
  | stop
  | skip
  | retry
  deriving DecidableEq, Repr

/-- A step's `repeat` object (`times` / `until_found` /
`until_not_found`, each optional). -/
structure RepeatSpec where
  times : Option Int
  untilFound : Option String
  untilNotFound : Option String
  deriving DecidableEq, Repr

/-- A `FlowStep` (`repeatSpec` embeds the `repeat` field, which is a
keyword in Lean). -/
structure FlowStep where
  action : String
  args : Args
  ifNotFound : Option IfNotFound
  repeatSpec : Option RepeatSpec
  onError : Option OnError
  label : Option String
  deriving DecidableEq, Repr

/-- A `FlowStepResult` record. -/
structure FlowStepResult where
  step : Nat
  action : String
  label : Option String
  success : Bool
  message : String
  durationMs : Int
  deriving DecidableEq, Repr

/-- `formatFlowResults(results, totalMs)`. -/
def formatFlowResults (results : List FlowStepResult) (totalMs : Int) : String :=
  let lines := ["Flow completed (" ++ toString totalMs ++ "ms)", ""]
  let lines := lines ++ results.map (fun r =>
    let label := match r.label with
      | some l => if l ≠ "" then " (" ++ l ++ ")" else ""
      | none => ""
    let status := if r.success then "OK" else "FAIL"
    toString r.step ++ ". " ++ r.action ++ label ++ ": " ++ status ++ " — " ++
      r.message ++ " (" ++ toString r.durationMs ++ "ms)")
  String.intercalate "\n" lines

/-- JS truthiness of an optional string (absent and `""` are falsy). -/
def truthyOpt : Option String → Bool
  | some s => s ≠ ""
  | none => false

/-- The oracle world a flow runs against. -/
structure FlowWorld where
  dispatch : Nat → Except ToolError String
  capture : Nat → Except ToolError (List UiElement)
  now : Nat → Nat
  /-- `ctx.deviceManager.getCurrentPlatform()` (may be undefined). -/
  currentPlatform : Option String

/-- Mutable flow-run state: how many dispatches, captures and clock
readings have happened, plus the trace of dispatcher re-entries. -/
structure FlowSt where
  dCount : Nat
  cCount : Nat
  tCount : Nat
  calls : List Call
  deriving DecidableEq, Repr

def initFlowSt : FlowSt := ⟨0, 0, 0, []⟩

/-- `Date.now()`. -/
def readNow (w : FlowWorld) (s : FlowSt) : Nat × FlowSt :=
  (w.now s.tCount, { s with tCount := s.tCount + 1 })

/-- `await ctx.handleTool(name, args, depth)` — records the call and
consumes the next dispatch outcome. -/
def callTool (w : FlowWorld) (s : FlowSt) (name : String) (args : Args) (depth : Nat) :
    Except ToolError String × FlowSt :=
  (w.dispatch s.dCount,
   { s with dCount := s.dCount + 1, calls := s.calls ++ [⟨name, args, depth⟩] })

/-- `await ctx.getElementsForPlatform(currentPlatform)`. -/
def captureElements (w : FlowWorld) (s : FlowSt) :
    Except ToolError (List UiElement) × FlowSt :=
  (w.capture s.cCount, { s with cCount := s.cCount + 1 })

/-- Per-step loop parameters, fixed for the whole repeat loop of one
step (`i`, `stepArgs`, `onError`, the repeat predicates, the shared
`flowStart` reading and the capped `maxDuration`). -/
structure StepParams where
  index : Nat
  action : String
  label : Option String
  stepArgs : Args
  ifNotFound : Option IfNotFound
  onError : OnError
  untilFound : Option String
  untilNotFound : Option String
  platform : Option String
  depth : Nat
  flowStart : Nat
  maxDuration : Int

/-- `const hasRepeatCondition = untilFound || untilNotFound`. -/
def StepParams.hasRepeatCondition (p : StepParams) : Bool :=
  truthyOpt p.untilFound || truthyOpt p.untilNotFound

/-- How the repeat-iteration loop of one step ended: `finished` is a
`break` or loop exhaustion (with the current `lastStepResult`);
`flowStop` is the `return` taken inside the catch when
`onError === "stop"`. -/
inductive IterExit where
  | finished (last : Option FlowStepResult)
  | flowStop (last : FlowStepResult)
  deriving DecidableEq, Repr

/-- Verdict of the per-step `catch` block: leave the loop with the given
exit, or sleep and go to the next iteration (`on_error: "retry"`). -/
inductive CatchOut where
  | exitLoop (exit : IterExit)
  | retryContinue
  deriving DecidableEq, Repr

/-- The per-step `catch (error)` block of `run_flow` (lines 241–298):
not-found fallback when `if_not_found` is set and the message matches,
otherwise the `on_error` policy.  `remaining` is the number of loop
iterations after the current one (`iter < maxIterations - 1` is
`remaining ≥ 1`). -/
def stepCatch (w : FlowWorld) (p : StepParams) (e : ToolError) (stepStart : Nat)
    (remaining : Nat) (s : FlowSt) : CatchOut × FlowSt :=
  let (tCatch, s) := readNow w s
  let durationMs : Int := (tCatch : Int) - (stepStart : Int)
  let isNotFound := isNotFoundMessage e.message
  -- the plain `on_error` path (no applicable not-found fallback)
  let general : FlowSt → CatchOut × FlowSt := fun s =>
    if p.onError = OnError.retry ∧ remaining ≥ 1 then
      (CatchOut.retryContinue, s)
    else
      let failRes : FlowStepResult :=
        ⟨p.index + 1, p.action, p.label, false, e.message, durationMs⟩
      if p.onError = OnError.stop then
        (CatchOut.exitLoop (IterExit.flowStop failRes), s)
      else
        (CatchOut.exitLoop (IterExit.finished (some failRes)), s)
  match p.ifNotFound with
  | none => general s
  | some inf =>
    if !isNotFound then general s
    else if inf = IfNotFound.skip then
      (CatchOut.exitLoop (IterExit.finished (some
        ⟨p.index + 1, p.action, p.label, true, "Skipped (element not found)", durationMs⟩)), s)
    else if inf = IfNotFound.scrollDown ∨ inf = IfNotFound.scrollUp then
      -- one directional swipe, a short wait, then a single retry
      let dir := if inf = IfNotFound.scrollDown then "up" else "down"
      let (sw, s) := callTool w s "swipe"
        [("direction", AVal.str dir), ("platform", pval p.platform)] (p.depth + 1)
      match sw with
      | .ok _ =>
        let (retryRes, s) := callTool w s p.action p.stepArgs (p.depth + 1)
        let (tEnd, s) := readNow w s
        match retryRes with
        | .ok retryText =>
          (CatchOut.exitLoop (IterExit.finished (some
            ⟨p.index + 1, p.action, p.label, true,
             retryText.take 150 ++ " (after " ++ inf.jsName ++ ")",
             (tEnd : Int) - (stepStart : Int)⟩)), s)
        | .error retryErr =>
          (CatchOut.exitLoop (IterExit.finished (some
            ⟨p.index + 1, p.action, p.label, false,
             retryErr.message ++ " (after " ++ inf.jsName ++ ")",
             (tEnd : Int) - (stepStart : Int)⟩)), s)
      | .error swErr =>
        let (tEnd, s) := readNow w s
        (CatchOut.exitLoop (IterExit.finished (some
          ⟨p.index + 1, p.action, p.label, false,
           swErr.message ++ " (after " ++ inf.jsName ++ ")",
           (tEnd : Int) - (stepStart : Int)⟩)), s)
    else
      -- `if_not_found: "fail"`: record the failure and break
      (CatchOut.exitLoop (IterExit.finished (some
        ⟨p.index + 1, p.action, p.label, false, e.message, durationMs⟩)), s)

/-- The repeat-iteration loop of one step (lines 203–300).  Returns the
exit, the final state, and the number of iterations that reached the
main dispatch of the step's action. -/
def runIters (w : FlowWorld) (p : StepParams) :
    Nat → Option FlowStepResult → FlowSt → IterExit × FlowSt × Nat
  | 0, last, s => (IterExit.finished last, s, 0)
  | Nat.succ remaining, last, s =>
    -- `if (Date.now() - flowStart > maxDuration) break;`
    let (tIter, s) := readNow w s
    if (tIter : Int) - (p.flowStart : Int) > p.maxDuration then
      (IterExit.finished last, s, 0)
    else
      let (stepStart, s) := readNow w s
      match callTool w s p.action p.stepArgs (p.depth + 1) with
      | (.ok text, s) =>
        let (tDone, s) := readNow w s
        let okRes : FlowStepResult :=
          ⟨p.index + 1, p.action, p.label, true, text.take 200,
           (tDone : Int) - (stepStart : Int)⟩
        if p.hasRepeatCondition then
          match captureElements w s with
          | (.ok elements, s) =>
            if truthyOpt p.untilFound ∧
                (findElementsText elements (p.untilFound.getD "")).length > 0 then
              (IterExit.finished (some okRes), s, 1)
            else if truthyOpt p.untilNotFound ∧
                (findElementsText elements (p.untilNotFound.getD "")).length = 0 then
              (IterExit.finished (some okRes), s, 1)
            else
              -- `await sleep(300)`, then the next iteration
              let (exit, s, n) := runIters w p remaining (some okRes) s
              (exit, s, n + 1)
          | (.error condErr, s) =>
            if condErr.isBackendUnavailable then
              -- `throw condErr` — caught by this step's own catch block
              match stepCatch w p condErr stepStart remaining s with
              | (CatchOut.exitLoop ex, s) => (ex, s, 1)
              | (CatchOut.retryContinue, s) =>
                let (exit, s, n) := runIters w p remaining (some okRes) s
                (exit, s, n + 1)
            else
              -- non-backend condition errors are swallowed
              let (exit, s, n) := runIters w p remaining (some okRes) s
              (exit, s, n + 1)
        else
          let (exit, s, n) := runIters w p remaining (some okRes) s
          (exit, s, n + 1)
      | (.error e, s) =>
        match stepCatch w p e stepStart remaining s with
        | (CatchOut.exitLoop ex, s) => (ex, s, 1)
        | (CatchOut.retryContinue, s) =>
          let (exit, s, n) := runIters w p remaining last s
          (exit, s, n + 1)

/-- `const repeatTimes = step.repeat?.times ?
Math.min(step.repeat.times, FLOW_MAX_REPEAT) : 1` (`times: 0` is falsy
in JS and also yields 1). -/
def flowRepeatTimes (step : FlowStep) : Int :=
  match step.repeatSpec with
  | some rs =>
    match rs.times with
    | some t => if t ≠ 0 then min t FLOW_MAX_REPEAT else 1
    | none => 1
  | none => 1

/-- `const untilFound = step.repeat?.until_found`. -/
def flowUntilFound (step : FlowStep) : Option String :=
  step.repeatSpec.bind (fun rs => rs.untilFound)

/-- `const untilNotFound = step.repeat?.until_not_found`. -/
def flowUntilNotFound (step : FlowStep) : Option String :=
  step.repeatSpec.bind (fun rs => rs.untilNotFound)

/-- `const hasRepeatCondition = untilFound || untilNotFound`. -/
def flowHasRepeatCondition (step : FlowStep) : Bool :=
  truthyOpt (flowUntilFound step) || truthyOpt (flowUntilNotFound step)

/-- `const maxIterations = hasRepeatCondition ? FLOW_MAX_REPEAT :
repeatTimes`. -/
def flowMaxIterations (step : FlowStep) : Int :=
  if flowHasRepeatCondition step then FLOW_MAX_REPEAT else flowRepeatTimes step

/-- The step loop of `run_flow` (lines 178–308): per-step time check and
synthetic timeout result, `stepArgs` construction, repeat-bound
computation, the iteration loop, and the post-loop push/stop logic. -/
def runSteps (w : FlowWorld) (platform : Option String) (depth : Nat)
    (flowStart : Nat) (maxDuration : Int) :
    List FlowStep → Nat → List FlowStepResult → FlowSt →
    String × List FlowStepResult × FlowSt
  | [], _, results, s =>
    let (tEnd, s) := readNow w s
    (formatFlowResults results ((tEnd : Int) - (flowStart : Int)), results, s)
  | step :: rest, i, results, s =>
    let (tNow, s) := readNow w s
    if (tNow : Int) - (flowStart : Int) > maxDuration then
      let results := results ++ [⟨i + 1, step.action, step.label, false,
        "Flow timeout (" ++ toString maxDuration ++ "ms exceeded)", 0⟩]
      let (tEnd, s) := readNow w s
      (formatFlowResults results ((tEnd : Int) - (flowStart : Int)), results, s)
    else
      let stepArgs := objSet step.args "platform" (pval platform)
      let onError := step.onError.getD OnError.stop
      let p : StepParams := ⟨i, step.action, step.label, stepArgs, step.ifNotFound,
        onError, flowUntilFound step, flowUntilNotFound step, platform, depth,
        flowStart, maxDuration⟩
      match runIters w p (flowMaxIterations step).toNat none s with
      | (IterExit.flowStop last, s, _) =>
        let results := results ++ [last]
        let (tEnd, s) := readNow w s
        (formatFlowResults results ((tEnd : Int) - (flowStart : Int)), results, s)
      | (IterExit.finished none, s, _) =>
        runSteps w platform depth flowStart maxDuration rest (i + 1) results s
      | (IterExit.finished (some last), s, _) =>
        let results := results ++ [last]
        if !last.success ∧ step.onError.getD OnError.stop = OnError.stop then
          let (tEnd, s) := readNow w s
          (formatFlowResults results ((tEnd : Int) - (flowStart : Int)), results, s)
        else
          runSteps w platform depth flowStart maxDuration rest (i + 1) results s

/-- Arguments of `run_flow`. -/
structure RunFlowArgs where
  platform : Option String
  steps : List FlowStep
  maxDuration : Option Int

/-- Observable outcome of one `run_flow` handler invocation: the thrown
error or response text, the accumulated `FlowStepResult`s and the final
oracle-consumption state (with the dispatch trace). -/
structure FlowRunOut where
  response : Except String String
  results : List FlowStepResult
  state : FlowSt

/-- The `run_flow` handler: depth guard, platform/duration resolution,
empty / step-count / allow-list validation gates, then the step loop. -/
def runFlow (w : FlowWorld) (args : RunFlowArgs) (depth : Nat) : FlowRunOut :=
  if depth > MAX_RECURSION_DEPTH then
    ⟨Except.error recursionErrorMessage, [], initFlowSt⟩
  else
    let platform := args.platform.orElse (fun _ => w.currentPlatform)
    let maxDuration := min (args.maxDuration.getD 30000) FLOW_MAX_DURATION
    if args.steps.isEmpty then
      ⟨Except.ok "No steps provided", [], initFlowSt⟩
    else if args.steps.length > FLOW_MAX_STEPS then
      ⟨Except.ok ("Too many steps (" ++ toString args.steps.length ++
        "). Maximum is " ++ toString FLOW_MAX_STEPS ++ "."), [], initFlowSt⟩
    else
      match args.steps.find? (fun st => !(FLOW_ALLOWED_ACTIONS.contains st.action)) with
      | some bad =>
        ⟨Except.ok ("Action \"" ++ bad.action ++ "\" is not allowed in flows. Allowed: " ++
          String.intercalate ", " FLOW_ALLOWED_ACTIONS), [], initFlowSt⟩
      | none =>
        let (flowStart, s) := readNow w initFlowSt
        let (text, results, s) :=
          runSteps w platform depth flowStart maxDuration args.steps 0 [] s
        ⟨Except.ok text, results, s⟩

/-! ## Helper lemmas -/

/-- A key found in a JS `Map` is among its entries' keys. -/
theorem mapGet_some_mem {m : List (String × α)} {k : String} {v : α}
    (h : mapGet m k = some v) : k ∈ m.map (fun p => p.1) := by
  induction m with
  | nil => simp [mapGet] at h
  | cons hd tl ih =>
    by_cases hk : hd.1 = k
    · simp [hk]
    · simp only [mapGet, if_neg hk] at h
      simp [ih h]

/-- A key absent from a JS `Map` is not among its entries' keys. -/
theorem mapGet_none_not_mem {m : List (String × α)} {k : String}
    (h : mapGet m k = none) : k ∉ m.map (fun p => p.1) := by
  induction m with
  | nil => simp
  | cons hd tl ih =>
    by_cases hk : hd.1 = k
    · simp [mapGet, hk] at h
    · simp only [mapGet, if_neg hk] at h
      simp only [List.map_cons, List.mem_cons, not_or]
      exact ⟨fun hc => hk hc.symm, ih h⟩

/-! ## Claim theorems -/

/-- Shared example registry: canonical tool "tap" with handler 0, plus
the alias `click → tap` (as in `registerAliases({"click": "tap"})`). -/
def exampleRegistry : Registry :=
  registerAliases (registerTools ⟨[], []⟩ [("tap", 0)]) [("click", "tap")]

/-- C1 counterexample: at recursion depth exactly equal to
`MAX_RECURSION_DEPTH` (= 3), `handleTool` does not fail — it resolves
and invokes the handler, because the guard is `depth > MAX_RECURSION_DEPTH`,
not `depth ≥ MAX_RECURSION_DEPTH`. -/
theorem handleTool_at_max_depth_invokes :
    handleTool exampleRegistry "tap" [] MAX_RECURSION_DEPTH =
      DispatchResult.invoked 0 [] 3 := by
  rfl

/-- C1 (corrected): the dispatcher fails with the recursion-limit error,
performing no handler invocation, exactly when the depth strictly
exceeds `MAX_RECURSION_DEPTH`; at depth equal to the maximum a resolvable
tool's handler is still invoked. -/
theorem handleTool_depth_guard :
    (∀ (r : Registry) (name : String) (args : Args) (depth : Nat),
        depth > MAX_RECURSION_DEPTH →
        handleTool r name args depth = DispatchResult.error recursionErrorMessage) ∧
    (∀ (r : Registry) (name : String) (args : Args) (h : HandlerId),
        getHandler r name = some h →
        handleTool r name args MAX_RECURSION_DEPTH =
          DispatchResult.invoked h args MAX_RECURSION_DEPTH) := by
  constructor
  · intro r name args depth hd
    simp [handleTool, hd]
  · intro r name args h hres
    simp [handleTool, hres, MAX_RECURSION_DEPTH]

/-- Witness for `handleTool_depth_guard` at concrete inputs. -/
theorem handleTool_depth_guard_witness :
    handleTool exampleRegistry "tap" [] 4 = DispatchResult.error recursionErrorMessage ∧
    handleTool exampleRegistry "tap" [] MAX_RECURSION_DEPTH =
      DispatchResult.invoked 0 [] MAX_RECURSION_DEPTH :=
  ⟨handleTool_depth_guard.1 exampleRegistry "tap" [] 4 (by decide),
   handleTool_depth_guard.2 exampleRegistry "tap" [] 0 (by rfl)⟩

/-- In the replace-in-place branch of `mapSet`, the stored value is
found when some entry carried the key. -/
theorem mapGet_map_replace_self {m : List (String × α)} {k : String} (v : α)
    (h : m.any (fun p => p.1 = k) = true) :
    mapGet (m.map (fun p => if p.1 = k then (k, v) else p)) k = some v := by
  induction m with
  | nil => simp at h
  | cons hd tl ih =>
    by_cases hk : hd.1 = k
    · rw [List.map_cons, if_pos hk]
      simp [mapGet]
    · rw [List.map_cons, if_neg hk]
      simp only [mapGet, if_neg hk]
      apply ih
      simp only [List.any_cons, Bool.or_eq_true, decide_eq_true_eq] at h
      exact h.resolve_left hk

/-- Looking up a key in a map that does not carry it falls through an
appended entry with that key. -/
theorem mapGet_append_single {m : List (String × α)} {k : String} (v : α)
    (h : m.any (fun p => p.1 = k) = false) :
    mapGet (m ++ [(k, v)]) k = some v := by
  induction m with
  | nil => simp [mapGet]
  | cons hd tl ih =>
    simp only [List.any_cons, Bool.or_eq_false_iff, decide_eq_false_iff_not] at h
    rw [List.cons_append]
    simp only [mapGet, if_neg h.1]
    exact ih h.2

/-- `Map.set` (and JS object-literal override) makes the key map to the
new value. -/
theorem mapGet_mapSet_self (m : List (String × α)) (k : String) (v : α) :
    mapGet (mapSet m k v) k = some v := by
  unfold mapSet
  cases hany : m.any (fun p => p.1 = k) with
  | true =>
    rw [if_pos rfl]
    exact mapGet_map_replace_self v hany
  | false =>
    rw [if_neg (by simp)]
    exact mapGet_append_single v hany

/-- `Map.set` leaves every other key's value unchanged. -/
theorem mapGet_mapSet_other (m : List (String × α)) (k k' : String) (v : α)
    (hk : k' ≠ k) : mapGet (mapSet m k v) k' = mapGet m k' := by
  unfold mapSet
  cases hany : m.any (fun p => p.1 = k) with
  | true =>
    rw [if_pos rfl]
    clear hany
    induction m with
    | nil => rfl
    | cons hd tl ih =>
      rw [List.map_cons]
      by_cases h1 : hd.1 = k
      · rw [if_pos h1]
        simp only [mapGet]
        rw [if_neg (Ne.symm hk), if_neg (fun hc => (Ne.symm hk) (h1.symm.trans hc))]
        exact ih
      · rw [if_neg h1]
        simp only [mapGet]
        by_cases h2 : hd.1 = k'
        · rw [if_pos h2, if_pos h2]
        · rw [if_neg h2, if_neg h2]
          exact ih
  | false =>
    rw [if_neg (by simp)]
    clear hany
    induction m with
    | nil => simp only [List.nil_append, mapGet, if_neg (Ne.symm hk)]
    | cons hd tl ih =>
      rw [List.cons_append]
      simp only [mapGet]
      by_cases h2 : hd.1 = k'
      · rw [if_pos h2, if_pos h2]
      · rw [if_neg h2, if_neg h2]
        exact ih

/-- C7: canonical names take precedence over aliases in resolution;
after `registerAliases({"click": "tap"})`, dispatching "click" resolves
to the same handler as "tap"; `getTools` lists "tap" but never the alias
name "click". -/
theorem alias_resolution_and_visibility :
    (∀ (r : Registry) (name : String) (h : HandlerId),
        mapGet r.toolMap name = some h → getHandler r name = some h) ∧
    (∀ (r : Registry) (h : HandlerId),
        mapGet r.toolMap "tap" = some h →
        mapGet r.toolMap "click" = none →
        getHandler (registerAliases r [("click", "tap")]) "click" = some h ∧
        getHandler (registerAliases r [("click", "tap")]) "tap" = some h ∧
        "tap" ∈ getTools (registerAliases r [("click", "tap")]) ∧
        "click" ∉ getTools (registerAliases r [("click", "tap")])) := by
  constructor
  · intro r name h hget
    simp [getHandler, hget]
  · intro r h htap hclick
    have haliasMap : (registerAliases r [("click", "tap")]).toolMap = r.toolMap := rfl
    refine ⟨?_, ?_, ?_, ?_⟩
    · have halias : mapGet (registerAliases r [("click", "tap")]).aliasMap "click" =
          some "tap" := by
        show mapGet (mapSet r.aliasMap "click" "tap") "click" = some "tap"
        exact mapGet_mapSet_self r.aliasMap "click" "tap"
      simp only [getHandler, haliasMap, hclick, halias, htap]
    · simp [getHandler, haliasMap, htap]
    · exact mapGet_some_mem (m := (registerAliases r [("click", "tap")]).toolMap) htap
    · exact mapGet_none_not_mem (m := (registerAliases r [("click", "tap")]).toolMap) hclick

/-- Witness for `alias_resolution_and_visibility` at the example
registry. -/
theorem alias_resolution_and_visibility_witness :
    getHandler exampleRegistry "click" = some 0 ∧
    getHandler exampleRegistry "tap" = some 0 ∧
    "tap" ∈ getTools exampleRegistry ∧
    "click" ∉ getTools exampleRegistry := by
  have h := alias_resolution_and_visibility.2
    (registerTools ⟨[], []⟩ [("tap", 0)]) 0 (by rfl) (by rfl)
  exact h

/-- C9: the diff-mode screenshot tiering with a cached previous capture:
below 5% change the response is text-only (no image); from 5% up to but
excluding 80% with a resolvable region only the padded crop of the
changed region is shipped; at 80% or more, or with no resolvable region,
the full frame is shipped. -/
theorem screenshot_diff_tiering :
    (∀ (prev png : Buffer) (diffOf : Buffer → Buffer → ScreenDiff),
       (diffOf prev png).changePercent < 5 →
       screenshotDiffBranch (some prev) png diffOf =
         ShotResponse.textOnly
           ("Screen unchanged (" ++ toString (diffOf prev png).changePercent ++ "% diff)")) ∧
    (∀ (prev png : Buffer) (diffOf : Buffer → Buffer → ScreenDiff) (r : Region),
       5 ≤ (diffOf prev png).changePercent →
       (diffOf prev png).changePercent < 80 →
       (diffOf prev png).changedRegion = some r →
       screenshotDiffBranch (some prev) png diffOf =
         ShotResponse.image (Buffer.cropped png r 20)
           ("Changed region (" ++ toString (diffOf prev png).changePercent ++ "% diff) at (" ++
            toString r.x ++ ", " ++ toString r.y ++ ") " ++
            toString r.width ++ "x" ++ toString r.height)) ∧
    (∀ (prev png : Buffer) (diffOf : Buffer → Buffer → ScreenDiff),
       80 ≤ (diffOf prev png).changePercent →
       screenshotDiffBranch (some prev) png diffOf =
         ShotResponse.image png
           ("Screen changed significantly (" ++ toString (diffOf prev png).changePercent ++
            "% diff) — full screenshot")) ∧
    (∀ (prev png : Buffer) (diffOf : Buffer → Buffer → ScreenDiff),
       5 ≤ (diffOf prev png).changePercent →
       (diffOf prev png).changedRegion = none →
       screenshotDiffBranch (some prev) png diffOf =
         ShotResponse.image png
           ("Screen changed significantly (" ++ toString (diffOf prev png).changePercent ++
            "% diff) — full screenshot")) := by
  refine ⟨?_, ?_, ?_, ?_⟩
  · intro prev png diffOf h5
    simp only [screenshotDiffBranch, if_pos h5]
  · intro prev png diffOf r h5 h80 hr
    simp only [screenshotDiffBranch, if_neg (not_lt.mpr h5), hr]
    rw [if_neg (not_le.mpr h80)]
  · intro prev png diffOf h80
    have h5 : ¬ (diffOf prev png).changePercent < 5 :=
      not_lt.mpr (le_trans (by norm_num) h80)
    simp only [screenshotDiffBranch, if_neg h5]
    cases hr : (diffOf prev png).changedRegion with
    | none => rfl
    | some r =>
      dsimp only
      rw [if_pos (show (diffOf prev png).changePercent ≥ 80 from h80)]
  · intro prev png diffOf h5 hr
    simp only [screenshotDiffBranch, if_neg (not_lt.mpr h5), hr]

/-- Witness for `screenshot_diff_tiering` at concrete diffs. -/
theorem screenshot_diff_tiering_witness :
    screenshotDiffBranch (some (Buffer.captured 0)) (Buffer.captured 1)
        (fun _ _ => ⟨2, none⟩) =
      ShotResponse.textOnly ("Screen unchanged (" ++ toString (2 : ℚ) ++ "% diff)") ∧
    screenshotDiffBranch (some (Buffer.captured 0)) (Buffer.captured 1)
        (fun _ _ => ⟨40, some ⟨1, 2, 3, 4⟩⟩) =
      ShotResponse.image (Buffer.cropped (Buffer.captured 1) ⟨1, 2, 3, 4⟩ 20)
        ("Changed region (" ++ toString (40 : ℚ) ++ "% diff) at (" ++
         toString (1 : Int) ++ ", " ++ toString (2 : Int) ++ ") " ++
         toString (3 : Int) ++ "x" ++ toString (4 : Int)) ∧
    screenshotDiffBranch (some (Buffer.captured 0)) (Buffer.captured 1)
        (fun _ _ => ⟨95, some ⟨1, 2, 3, 4⟩⟩) =
      ShotResponse.image (Buffer.captured 1)
        ("Screen changed significantly (" ++ toString (95 : ℚ) ++ "% diff) — full screenshot") ∧
    screenshotDiffBranch (some (Buffer.captured 0)) (Buffer.captured 1)
        (fun _ _ => ⟨40, none⟩) =
      ShotResponse.image (Buffer.captured 1)
        ("Screen changed significantly (" ++ toString (40 : ℚ) ++ "% diff) — full screenshot") :=
  ⟨screenshot_diff_tiering.1 (Buffer.captured 0) (Buffer.captured 1) _ (by norm_num),
   screenshot_diff_tiering.2.1 (Buffer.captured 0) (Buffer.captured 1) _ ⟨1, 2, 3, 4⟩
     (by norm_num) (by norm_num) rfl,
   screenshot_diff_tiering.2.2.1 (Buffer.captured 0) (Buffer.captured 1) _ (by norm_num),
   screenshot_diff_tiering.2.2.2 (Buffer.captured 0) (Buffer.captured 1) _ (by norm_num) rfl⟩

/-- C8: when the post-action hierarchy re-capture fails,
`generateActionHints` returns the textual hints-unavailable message
carrying the failure reason (it is a total function — nothing
propagates), and the `tap` handler's response is still its success line,
merely extended with that text. -/
theorem hints_degrade_on_capture_failure :
    ∀ (platform currentDefault : Option String) (before : List UiElement)
      (reason : String)
      (diffFn : List UiElement → List UiElement → UiDiffResult)
      (suggestFn : List UiElement → List String) (x y : Int),
      hintsCapturePlatform ((platform.orElse (fun _ => currentDefault)).getD "android") = true →
      (generateActionHints platform currentDefault before (Except.error reason)
          diffFn suggestFn).text =
        "\n--- Hints ---\nUnable to fetch UI state for hints: " ++ reason ∧
      tapResponseText x y true
          (generateActionHints platform currentDefault before (Except.error reason)
            diffFn suggestFn).text =
        "Tapped at (" ++ toString x ++ ", " ++ toString y ++ ")" ++
          ("\n--- Hints ---\nUnable to fetch UI state for hints: " ++ reason) := by
  intro platform currentDefault before reason diffFn suggestFn x y hcap
  constructor
  · simp only [generateActionHints, hcap, if_true]
  · simp only [generateActionHints, hcap, if_true, tapResponseText]

/-- Witness for `hints_degrade_on_capture_failure`. -/
theorem hints_degrade_on_capture_failure_witness :
    (generateActionHints (some "android") none [] (Except.error "no devices/emulators found")
        (fun _ _ => ⟨[], [], 0, 0, false⟩) (fun _ => [])).text =
      "\n--- Hints ---\nUnable to fetch UI state for hints: " ++ "no devices/emulators found" ∧
    tapResponseText 100 200 true
        (generateActionHints (some "android") none [] (Except.error "no devices/emulators found")
          (fun _ _ => ⟨[], [], 0, 0, false⟩) (fun _ => [])).text =
      "Tapped at (" ++ toString (100 : Int) ++ ", " ++ toString (200 : Int) ++ ")" ++
        ("\n--- Hints ---\nUnable to fetch UI state for hints: " ++ "no devices/emulators found") :=
  hints_degrade_on_capture_failure (some "android") none [] "no devices/emulators found"
    (fun _ _ => ⟨[], [], 0, 0, false⟩) (fun _ => []) 100 200 (by rfl)

/-- C2: a flow containing a step whose action is outside
`FLOW_ALLOWED_ACTIONS` is rejected before execution: no dispatcher
re-entry, no hierarchy capture, and no step result is ever produced. -/
theorem flow_disallowed_action_rejected :
    ∀ (w : FlowWorld) (args : RunFlowArgs) (depth : Nat),
      (∃ st, st ∈ args.steps ∧ FLOW_ALLOWED_ACTIONS.contains st.action = false) →
      (runFlow w args depth).state.calls = [] ∧
      (runFlow w args depth).state.dCount = 0 ∧
      (runFlow w args depth).state.cCount = 0 ∧
      (runFlow w args depth).results = [] := by
  intro w args depth h
  obtain ⟨st, hmem, hact⟩ := h
  simp only [runFlow]
  split
  · exact ⟨rfl, rfl, rfl, rfl⟩
  · split
    · exact ⟨rfl, rfl, rfl, rfl⟩
    · split
      · exact ⟨rfl, rfl, rfl, rfl⟩
      · split
        · exact ⟨rfl, rfl, rfl, rfl⟩
        · rename_i hnone
          exfalso
          have hforall := List.find?_eq_none.mp hnone st hmem
          simp only [hact, Bool.not_false] at hforall
          exact hforall trivial

/-- Witness for `flow_disallowed_action_rejected`: a flow containing the
composite action `run_flow` (not in the allow-list) is rejected with no
calls. -/
theorem flow_disallowed_action_rejected_witness :
    (runFlow ⟨fun _ => Except.ok "", fun _ => Except.ok [], fun _ => 0, some "android"⟩
      ⟨none, [⟨"run_flow", [], none, none, none, none⟩], none⟩ 0).state.calls = [] ∧
    (runFlow ⟨fun _ => Except.ok "", fun _ => Except.ok [], fun _ => 0, some "android"⟩
      ⟨none, [⟨"run_flow", [], none, none, none, none⟩], none⟩ 0).state.dCount = 0 ∧
    (runFlow ⟨fun _ => Except.ok "", fun _ => Except.ok [], fun _ => 0, some "android"⟩
      ⟨none, [⟨"run_flow", [], none, none, none, none⟩], none⟩ 0).state.cCount = 0 ∧
    (runFlow ⟨fun _ => Except.ok "", fun _ => Except.ok [], fun _ => 0, some "android"⟩
      ⟨none, [⟨"run_flow", [], none, none, none, none⟩], none⟩ 0).results = [] :=
  flow_disallowed_action_rejected _ _ 0
    ⟨⟨"run_flow", [], none, none, none, none⟩, by simp, by rfl⟩

/-- `dropLast`-compatibility of `all` with a cons. -/
theorem all_dropLast_cons (a : α) (l : List α) (p : α → Bool) (ha : p a = true)
    (h : l.dropLast.all p = true) : (a :: l).dropLast.all p = true := by
  cases l with
  | nil => rfl
  | cons b t =>
    have he : (a :: b :: t).dropLast = a :: (b :: t).dropLast := rfl
    rw [he, List.all_cons, ha, Bool.true_and]
    exact h

/-- The batch loop dispatches the executed commands in list order: the
trace is exactly the executed prefix of `commands`, each re-entering the
dispatcher at `depth + 1`. -/
theorem runBatchCmds_calls_prefix (dispatch : Nat → Except ToolError String)
    (depth : Nat) (stop : Bool) :
    ∀ (cmds : List BatchCmd) (n : Nat),
      (runBatchCmds dispatch depth stop cmds n).2 =
        (cmds.take (runBatchCmds dispatch depth stop cmds n).1.length).map
          (fun c => ⟨c.name, c.arguments.getD [], depth + 1⟩) := by
  intro cmds
  induction cmds with
  | nil => intro n; rfl
  | cons cmd rest ih =>
    intro n
    cases hd : dispatch n with
    | ok text =>
      simp only [runBatchCmds, hd]
      cases hrec : runBatchCmds dispatch depth stop rest (n + 1) with
      | mk entries calls =>
        have ih' := ih (n + 1)
        rw [hrec] at ih'
        simpa using ih'
    | error e =>
      simp only [runBatchCmds, hd]
      cases stop with
      | true =>
        simp
      | false =>
        cases hrec : runBatchCmds dispatch depth false rest (n + 1) with
        | mk entries calls =>
          have ih' := ih (n + 1)
          rw [hrec] at ih'
          simpa using ih'

/-- With `stopOnError`, every executed command before the last recorded
entry succeeded (execution halts right after the first failure). -/
theorem runBatchCmds_stop_prefix_ok (dispatch : Nat → Except ToolError String)
    (depth : Nat) :
    ∀ (cmds : List BatchCmd) (n : Nat),
      ((runBatchCmds dispatch depth true cmds n).1.dropLast.all
        (fun e => e.success)) = true := by
  intro cmds
  induction cmds with
  | nil => intro n; rfl
  | cons cmd rest ih =>
    intro n
    cases hd : dispatch n with
    | ok text =>
      simp only [runBatchCmds, hd]
      cases hrec : runBatchCmds dispatch depth true rest (n + 1) with
      | mk entries calls =>
        have ih' := ih (n + 1)
        rw [hrec] at ih'
        exact all_dropLast_cons _ _ _ rfl ih'
    | error e =>
      simp only [runBatchCmds, hd]
      rfl

/-- Without `stopOnError`, every command of the batch is executed. -/
theorem runBatchCmds_nostop_all (dispatch : Nat → Except ToolError String)
    (depth : Nat) :
    ∀ (cmds : List BatchCmd) (n : Nat),
      (runBatchCmds dispatch depth false cmds n).1.length = cmds.length := by
  intro cmds
  induction cmds with
  | nil => intro n; rfl
  | cons cmd rest ih =>
    intro n
    cases hd : dispatch n with
    | ok text =>
      simp only [runBatchCmds, hd]
      cases hrec : runBatchCmds dispatch depth false rest (n + 1) with
      | mk entries calls =>
        have ih' := ih (n + 1)
        rw [hrec] at ih'
        simpa using ih'
    | error e =>
      simp only [runBatchCmds, hd]
      cases hrec : runBatchCmds dispatch depth false rest (n + 1) with
      | mk entries calls =>
        have ih' := ih (n + 1)
        rw [hrec] at ih'
        simpa using ih'

/-- Shared batch scenario oracle: the first and third dispatches
succeed, the second fails. -/
def batchOracle3 : Nat → Except ToolError String := fun n =>
  if n = 1 then Except.error (ToolError.failure "boom") else Except.ok "fine"

/-- The scenario batch `[{name:"ok_tool"},{name:"failing_tool"},{name:"ok_tool"}]`. -/
def batchCmds3 : List BatchCmd :=
  [⟨"ok_tool", none⟩, ⟨"failing_tool", none⟩, ⟨"ok_tool", none⟩]

/-- C6: `batch_commands` executes strictly sequentially (the trace is
the in-order executed prefix); `stopOnError` defaults to true; with
`stopOnError` every entry before the last succeeded, without it all
commands run; and on the 3-command scenario whose second command fails,
`stopOnError=true` executes exactly 2 entries while `stopOnError=false`
executes all 3 and reports the single failure in the summary. -/
theorem batch_sequential_stop_on_error :
    (∀ (dispatch : Nat → Except ToolError String) (cmds : List BatchCmd) (depth : Nat),
       batchCommands dispatch ⟨cmds, none⟩ depth = batchCommands dispatch ⟨cmds, some true⟩ depth) ∧
    (∀ (dispatch : Nat → Except ToolError String) (depth : Nat) (stop : Bool)
       (cmds : List BatchCmd) (n : Nat),
       (runBatchCmds dispatch depth stop cmds n).2 =
         (cmds.take (runBatchCmds dispatch depth stop cmds n).1.length).map
           (fun c => ⟨c.name, c.arguments.getD [], depth + 1⟩)) ∧
    (∀ (dispatch : Nat → Except ToolError String) (depth : Nat)
       (cmds : List BatchCmd) (n : Nat),
       ((runBatchCmds dispatch depth true cmds n).1.dropLast.all
         (fun e => e.success)) = true) ∧
    (∀ (dispatch : Nat → Except ToolError String) (depth : Nat)
       (cmds : List BatchCmd) (n : Nat),
       (runBatchCmds dispatch depth false cmds n).1.length = cmds.length) ∧
    ((batchCommands batchOracle3 ⟨batchCmds3, some true⟩ 0).2.1 =
       [⟨"ok_tool", true, "fine"⟩, ⟨"failing_tool", false, "boom"⟩] ∧
     (batchCommands batchOracle3 ⟨batchCmds3, some false⟩ 0).2.1 =
       [⟨"ok_tool", true, "fine"⟩, ⟨"failing_tool", false, "boom"⟩, ⟨"ok_tool", true, "fine"⟩] ∧
     (batchCommands batchOracle3 ⟨batchCmds3, some true⟩ 0).1 =
       Except.ok ("Batch: 2/3 executed, 1 failed\n\n" ++
         "1. ok_tool: OK — fine\n2. failing_tool: ERROR — boom") ∧
     (batchCommands batchOracle3 ⟨batchCmds3, some false⟩ 0).1 =
       Except.ok ("Batch: 3/3 executed, 1 failed\n\n" ++
         "1. ok_tool: OK — fine\n2. failing_tool: ERROR — boom\n3. ok_tool: OK — fine")) := by
  refine ⟨?_, runBatchCmds_calls_prefix, runBatchCmds_stop_prefix_ok,
    runBatchCmds_nostop_all, ?_, ?_, ?_, ?_⟩
  · intro dispatch cmds depth
    rfl
  · rfl
  · rfl
  · rfl
  · rfl

/-- A world whose every dispatch fails with an adapter-level
backend-unavailable error (e.g. `DeviceOfflineError`). -/
def offlineWorld : FlowWorld :=
  ⟨fun _ => Except.error (ToolError.backendUnavailable "device offline"),
   fun _ => Except.ok [], fun _ => 0, some "android"⟩

/-- A single-step flow `{action:"tap", repeat:{times:2}, on_error:"retry"}`. -/
def backendRetryFlow : RunFlowArgs :=
  ⟨none, [⟨"tap", [], none, some ⟨some 2, none, none⟩, some OnError.retry, none⟩], none⟩

/-- A world where the step action itself succeeds but every
repeat-condition hierarchy capture fails backend-unavailable. -/
def deadPollWorld : FlowWorld :=
  ⟨fun _ => Except.ok "tapped",
   fun _ => Except.error (ToolError.backendUnavailable "device offline"),
   fun _ => 0, some "android"⟩

/-- A single-step flow with a repeat-until predicate:
`{action:"tap", repeat:{until_found:"ready"}, on_error:"retry"}`. -/
def deadPollFlow : RunFlowArgs :=
  ⟨none, [⟨"tap", [], none, some ⟨none, some "ready", none⟩, some OnError.retry, none⟩], none⟩

/-- C3 (code bug): a backend-unavailable failure is *not* exempt from
per-step recovery.  With `on_error:"retry"` the failing step is silently
re-dispatched (here: twice), the error is converted into an ordinary
`FlowStepResult`, and the flow returns a normal report instead of
unwinding.  In a repeat-until loop whose condition captures hit a dead
backend, the step is re-attempted the full `FLOW_MAX_REPEAT` = 10 times
— the rethrow of `DeviceNotFoundError`/`DeviceOfflineError`/
`AdbNotInstalledError` in the condition check lands in the very catch
block whose recovery it was meant to bypass. -/
theorem backend_unavailable_not_propagated :
    ((runFlow offlineWorld backendRetryFlow 0).state.calls.length = 2 ∧
     (runFlow offlineWorld backendRetryFlow 0).results =
       [⟨1, "tap", none, false, "device offline", 0⟩] ∧
     (runFlow offlineWorld backendRetryFlow 0).response =
       Except.ok "Flow completed (0ms)\n\n1. tap: FAIL — device offline (0ms)") ∧
    ((runFlow deadPollWorld deadPollFlow 0).state.calls.length = 10 ∧
     (runFlow deadPollWorld deadPollFlow 0).results =
       [⟨1, "tap", none, false, "device offline", 0⟩] ∧
     (runFlow deadPollWorld deadPollFlow 0).response =
       Except.ok "Flow completed (0ms)\n\n1. tap: FAIL — device offline (0ms)") :=
  ⟨⟨rfl, rfl, rfl⟩, ⟨rfl, rfl, rfl⟩⟩

/-- `objSet` is the JS-`Map.set`/object-override operation. -/
theorem objSet_eq_mapSet (a : Args) (k : String) (v : AVal) :
    objSet a k v = mapSet a k v := rfl

/-- `lookupArg` is `mapGet` on argument maps. -/
theorem lookupArg_eq_mapGet (a : Args) (k : String) :
    lookupArg a k = mapGet a k := by
  induction a with
  | nil => rfl
  | cons hd tl ih =>
    simp only [lookupArg, mapGet]
    by_cases hk : hd.1 = k
    · rw [if_pos hk, if_pos hk]
    · rw [if_neg hk, if_neg hk]
      exact ih

/-- A dispatcher re-entry is platform-tagged when its argument map
carries `platform ↦ pval plat`. -/
def PlatCall (plat : Option String) (c : Call) : Prop :=
  lookupArg c.args "platform" = some (pval plat)

/-- The swipe-fallback argument literal is platform-tagged. -/
theorem platCall_swipe (plat : Option String) (dir : String) (d : Nat) :
    PlatCall plat ⟨"swipe", [("direction", AVal.str dir), ("platform", pval plat)], d⟩ := by
  show lookupArg [("direction", AVal.str dir), ("platform", pval plat)] "platform" =
    some (pval plat)
  simp [lookupArg]

/-- Every call appended by the per-step catch block is platform-tagged
(the retry re-uses `stepArgs`; the fallback swipe carries the literal). -/
theorem stepCatch_calls {w : FlowWorld} {p : StepParams} {e : ToolError}
    {t r : Nat} {s : FlowSt}
    (hstep : lookupArg p.stepArgs "platform" = some (pval p.platform)) :
    ∀ c ∈ (stepCatch w p e t r s).2.calls, c ∈ s.calls ∨ PlatCall p.platform c := by
  intro c hc
  simp only [stepCatch, readNow, callTool] at hc
  split at hc
  · -- if_not_found absent: the general on_error path adds no calls
    split at hc
    · exact Or.inl hc
    · split at hc
      · exact Or.inl hc
      · exact Or.inl hc
  · rename_i inf
    split at hc
    · -- message did not match: general path
      split at hc
      · exact Or.inl hc
      · split at hc
        · exact Or.inl hc
        · exact Or.inl hc
    · split at hc
      · -- skip
        exact Or.inl hc
      · split at hc
        · -- scroll: swipe then retry
          split at hc
          · -- swipe ok, retry dispatched
            split at hc <;>
            · simp only [List.mem_append, List.mem_singleton] at hc
              rcases hc with (hc | hc) | hc
              · exact Or.inl hc
              · exact Or.inr (hc ▸ platCall_swipe p.platform _ _)
              · exact Or.inr (hc ▸ hstep)
          · -- swipe itself failed
            simp only [List.mem_append, List.mem_singleton] at hc
            rcases hc with hc | hc
            · exact Or.inl hc
            · exact Or.inr (hc ▸ platCall_swipe p.platform _ _)
        · -- if_not_found = "fail"
          exact Or.inl hc

/-- Every call appended by the repeat-iteration loop is
platform-tagged. -/
theorem runIters_calls {w : FlowWorld} {p : StepParams}
    (hstep : lookupArg p.stepArgs "platform" = some (pval p.platform)) :
    ∀ (r : Nat) (last : Option FlowStepResult) (s : FlowSt),
      ∀ c ∈ (runIters w p r last s).2.1.calls, c ∈ s.calls ∨ PlatCall p.platform c := by
  intro r
  induction r with
  | zero =>
    intro last s c hc
    exact Or.inl hc
  | succ r ih =>
    intro last s c hc
    have hmain : PlatCall p.platform ⟨p.action, p.stepArgs, p.depth + 1⟩ := hstep
    simp only [runIters, readNow, callTool, captureElements] at hc
    split at hc
    · exact Or.inl hc
    · split at hc
      · -- dispatch succeeded
        rename_i text s1 heq1
        rw [Prod.mk.injEq] at heq1
        obtain ⟨-, hs1⟩ := heq1
        subst hs1
        split at hc
        · -- repeat condition present
          split at hc
          · -- capture succeeded
            rename_i elements s2 heq2
            rw [Prod.mk.injEq] at heq2
            obtain ⟨-, hs2⟩ := heq2
            subst hs2
            split at hc
            · -- until_found satisfied: loop breaks
              dsimp only at hc
              simp only [List.mem_append, List.mem_singleton] at hc
              rcases hc with hc | hc
              · exact Or.inl hc
              · exact Or.inr (hc ▸ hmain)
            · split at hc
              · -- until_not_found satisfied: loop breaks
                dsimp only at hc
                simp only [List.mem_append, List.mem_singleton] at hc
                rcases hc with hc | hc
                · exact Or.inl hc
                · exact Or.inr (hc ▸ hmain)
              · -- next iteration
                dsimp only at hc
                have hrec := ih _ _ c hc
                rcases hrec with hrec | hrec
                · simp only [List.mem_append, List.mem_singleton] at hrec
                  rcases hrec with hrec | hrec
                  · exact Or.inl hrec
                  · exact Or.inr (hrec ▸ hmain)
                · exact Or.inr hrec
          · -- capture failed
            rename_i condErr s2 heq2
            rw [Prod.mk.injEq] at heq2
            obtain ⟨-, hs2⟩ := heq2
            subst hs2
            split at hc
            · -- backend-unavailable: rethrown into the step catch
              split at hc
              · rename_i ex s' heq
                dsimp only at hc
                have hsc := stepCatch_calls hstep c (by rw [heq]; exact hc)
                rcases hsc with hsc | hsc
                · simp only [List.mem_append, List.mem_singleton] at hsc
                  rcases hsc with hsc | hsc
                  · exact Or.inl hsc
                  · exact Or.inr (hsc ▸ hmain)
                · exact Or.inr hsc
              · rename_i s' heq
                dsimp only at hc
                have hrec := ih _ _ c hc
                rcases hrec with hrec | hrec
                · have hsc := stepCatch_calls hstep c (by rw [heq]; exact hrec)
                  rcases hsc with hsc | hsc
                  · simp only [List.mem_append, List.mem_singleton] at hsc
                    rcases hsc with hsc | hsc
                    · exact Or.inl hsc
                    · exact Or.inr (hsc ▸ hmain)
                  · exact Or.inr hsc
                · exact Or.inr hrec
            · -- swallowed condition error: next iteration
              dsimp only at hc
              have hrec := ih _ _ c hc
              rcases hrec with hrec | hrec
              · simp only [List.mem_append, List.mem_singleton] at hrec
                rcases hrec with hrec | hrec
                · exact Or.inl hrec
                · exact Or.inr (hrec ▸ hmain)
              · exact Or.inr hrec
        · -- plain success: next iteration
          dsimp only at hc
          have hrec := ih _ _ c hc
          rcases hrec with hrec | hrec
          · simp only [List.mem_append, List.mem_singleton] at hrec
            rcases hrec with hrec | hrec
            · exact Or.inl hrec
            · exact Or.inr (hrec ▸ hmain)
          · exact Or.inr hrec
      · -- dispatch failed: the step catch
        rename_i e s1 heq1
        rw [Prod.mk.injEq] at heq1
        obtain ⟨-, hs1⟩ := heq1
        subst hs1
        split at hc
        · rename_i ex s' heq
          dsimp only at hc
          have hsc := stepCatch_calls hstep c (by rw [heq]; exact hc)
          rcases hsc with hsc | hsc
          · simp only [List.mem_append, List.mem_singleton] at hsc
            rcases hsc with hsc | hsc
            · exact Or.inl hsc
            · exact Or.inr (hsc ▸ hmain)
          · exact Or.inr hsc
        · rename_i s' heq
          dsimp only at hc
          have hrec := ih _ _ c hc
          rcases hrec with hrec | hrec
          · have hsc := stepCatch_calls hstep c (by rw [heq]; exact hrec)
            rcases hsc with hsc | hsc
            · simp only [List.mem_append, List.mem_singleton] at hsc
              rcases hsc with hsc | hsc
              · exact Or.inl hsc
              · exact Or.inr (hsc ▸ hmain)
            · exact Or.inr hsc
          · exact Or.inr hrec

/-- Every call appended by the step loop is platform-tagged. -/
theorem runSteps_calls (w : FlowWorld) (platform : Option String) (depth flowStart : Nat)
    (maxDuration : Int) :
    ∀ (steps : List FlowStep) (i : Nat) (results : List FlowStepResult) (s : FlowSt),
      ∀ c ∈ (runSteps w platform depth flowStart maxDuration steps i results s).2.2.calls,
        c ∈ s.calls ∨ PlatCall platform c := by
  intro steps
  induction steps with
  | nil =>
    intro i results s c hc
    exact Or.inl hc
  | cons step rest ih =>
    intro i results s c hc
    have hstep' : lookupArg (objSet step.args "platform" (pval platform)) "platform" =
        some (pval platform) := by
      rw [lookupArg_eq_mapGet, objSet_eq_mapSet]
      exact mapGet_mapSet_self _ _ _
    simp only [runSteps, readNow] at hc
    split at hc
    · exact Or.inl hc
    · split at hc
      · -- `return` taken inside the loop (on_error stop)
        rename_i lastR s' n heq
        dsimp only at hc
        exact runIters_calls hstep' _ _ _ c (by rw [heq]; exact hc)
      · -- no result recorded: next step
        rename_i s' n heq
        have hrec := ih _ _ _ c hc
        rcases hrec with hrec | hrec
        · exact runIters_calls hstep' _ _ _ c (by rw [heq]; exact hrec)
        · exact Or.inr hrec
      · -- result recorded
        rename_i lastR s' n heq
        split at hc
        · -- failing result with on_error stop: flow returns
          dsimp only at hc
          exact runIters_calls hstep' _ _ _ c (by rw [heq]; exact hc)
        · -- next step
          have hrec := ih _ _ _ c hc
          rcases hrec with hrec | hrec
          · exact runIters_calls hstep' _ _ _ c (by rw [heq]; exact hrec)
          · exact Or.inr hrec

/-- C10: every dispatcher re-entry made by `run_flow` carries an
argument map whose `platform` key is the flow's resolved platform
(`args.platform ?? getCurrentPlatform()`); `stepArgs` construction
overwrites any caller-supplied `platform` value while preserving every
other key of the step's declared args. -/
theorem run_flow_platform_override :
    (∀ (a : Args) (cp : Option String),
       lookupArg (objSet a "platform" (pval cp)) "platform" = some (pval cp) ∧
       ∀ k, k ≠ "platform" → lookupArg (objSet a "platform" (pval cp)) k = lookupArg a k) ∧
    (∀ (w : FlowWorld) (args : RunFlowArgs) (depth : Nat),
       ∀ c ∈ (runFlow w args depth).state.calls,
         lookupArg c.args "platform" =
           some (pval (args.platform.orElse (fun _ => w.currentPlatform)))) := by
  constructor
  · intro a cp
    constructor
    · rw [lookupArg_eq_mapGet, objSet_eq_mapSet]
      exact mapGet_mapSet_self _ _ _
    · intro k hk
      rw [lookupArg_eq_mapGet, lookupArg_eq_mapGet, objSet_eq_mapSet]
      exact mapGet_mapSet_other _ _ _ _ hk
  · intro w args depth c hc
    simp only [runFlow, readNow] at hc
    split at hc
    · simp [initFlowSt] at hc
    · split at hc
      · simp [initFlowSt] at hc
      · split at hc
        · simp [initFlowSt] at hc
        · split at hc
          · simp [initFlowSt] at hc
          · dsimp only at hc
            have hall := runSteps_calls w (args.platform.orElse (fun _ => w.currentPlatform))
              depth (w.now 0) (min (args.maxDuration.getD 30000) FLOW_MAX_DURATION)
              args.steps 0 [] ⟨0, 0, 1, []⟩ c hc
            rcases hall with hall | hall
            · simp at hall
            · exact hall

/-- A world where everything succeeds with text "done". -/
def okWorld : FlowWorld :=
  ⟨fun _ => Except.ok "done", fun _ => Except.ok [], fun _ => 0, some "android"⟩

/-- A one-step flow whose step tries to smuggle `platform:"ios"` into
its own args. -/
def smuggleFlow : RunFlowArgs :=
  ⟨some "android", [⟨"tap", [("platform", AVal.str "ios"), ("x", AVal.num 1)],
    none, none, none, none⟩], none⟩

/-- Witness for `run_flow_platform_override`: the step-level `platform`
value "ios" is overwritten by the flow's platform "android" on the
dispatched call, and a non-platform key survives. -/
theorem run_flow_platform_override_witness :
    lookupArg (objSet [("platform", AVal.str "ios"), ("x", AVal.num 1)] "platform"
      (pval (some "android"))) "platform" = some (pval (some "android")) ∧
    lookupArg (objSet [("platform", AVal.str "ios"), ("x", AVal.num 1)] "platform"
      (pval (some "android"))) "x" =
      lookupArg [("platform", AVal.str "ios"), ("x", AVal.num 1)] "x" ∧
    lookupArg (⟨"tap", [("platform", AVal.str "android"), ("x", AVal.num 1)], 1⟩ : Call).args
      "platform" = some (pval (smuggleFlow.platform.orElse (fun _ => okWorld.currentPlatform))) :=
  ⟨(run_flow_platform_override.1 [("platform", AVal.str "ios"), ("x", AVal.num 1)]
      (some "android")).1,
   (run_flow_platform_override.1 [("platform", AVal.str "ios"), ("x", AVal.num 1)]
      (some "android")).2 "x" (by decide),
   run_flow_platform_override.2 okWorld smuggleFlow 0
     ⟨"tap", [("platform", AVal.str "android"), ("x", AVal.num 1)], 1⟩
     (by rw [show (runFlow okWorld smuggleFlow 0).state.calls =
         [⟨"tap", [("platform", AVal.str "android"), ("x", AVal.num 1)], 1⟩] from rfl]
         exact List.mem_singleton.mpr rfl)⟩

/-- The repeat loop never performs more main-dispatch attempts than its
iteration budget. -/
theorem runIters_attempts_le (w : FlowWorld) (p : StepParams) :
    ∀ (r : Nat) (last : Option FlowStepResult) (s : FlowSt),
      (runIters w p r last s).2.2 ≤ r := by
  intro r
  induction r with
  | zero => intro last s; exact Nat.le_refl 0
  | succ r ih =>
    intro last s
    simp only [runIters, readNow, callTool, captureElements]
    split
    · exact Nat.zero_le (r + 1)
    · split
      · -- dispatch ok
        split
        · -- repeat condition
          split
          · -- capture ok
            split
            · exact Nat.succ_le_succ (Nat.zero_le r)
            · split
              · exact Nat.succ_le_succ (Nat.zero_le r)
              · exact Nat.succ_le_succ (ih _ _)
          · -- capture error
            split
            · split
              · exact Nat.succ_le_succ (Nat.zero_le r)
              · exact Nat.succ_le_succ (ih _ _)
            · exact Nat.succ_le_succ (ih _ _)
        · exact Nat.succ_le_succ (ih _ _)
      · -- dispatch error
        split
        · exact Nat.succ_le_succ (Nat.zero_le r)
        · exact Nat.succ_le_succ (ih _ _)

/-- The per-step iteration budget is hard-capped at 10. -/
theorem flowMaxIterations_le_ten (step : FlowStep) :
    (flowMaxIterations step).toNat ≤ 10 := by
  unfold flowMaxIterations
  split
  · decide
  · unfold flowRepeatTimes
    split
    · split
      · split
        · exact Int.toNat_le_toNat (min_le_right _ FLOW_MAX_REPEAT)
        · decide
      · decide
    · decide

/-- Under a healthy backend (all dispatches succeed, all captures
succeed, an idle clock), an `until_found` loop performs exactly `j + 1`
attempts when the predicate element first appears in the capture after
attempt `j`. -/
theorem runIters_untilFound_first_hit (w : FlowWorld) (p : StepParams)
    (ts : Nat → String) (es : Nat → List UiElement)
    (hd : ∀ n, w.dispatch n = Except.ok (ts n))
    (hcap : ∀ n, w.capture n = Except.ok (es n))
    (hn : ∀ n, w.now n = 0)
    (hmd : 0 ≤ p.maxDuration)
    (hu : truthyOpt p.untilFound = true)
    (hnu : p.untilNotFound = none) :
    ∀ (r j : Nat) (last : Option FlowStepResult) (s : FlowSt),
      j < r →
      (∀ i, i < j →
        (findElementsText (es (s.cCount + i)) (p.untilFound.getD "")).length = 0) →
      (findElementsText (es (s.cCount + j)) (p.untilFound.getD "")).length > 0 →
      (runIters w p r last s).2.2 = j + 1 := by
  intro r
  induction r with
  | zero =>
    intro j last s hj
    exact absurd hj (Nat.not_lt_zero j)
  | succ r ih =>
    intro j last s hj hfirst hPj
    have hcond : p.hasRepeatCondition = true := by
      simp [StepParams.hasRepeatCondition, hu]
    simp only [runIters, readNow, callTool, captureElements, hn, hd, hcap, Nat.cast_zero]
    rw [if_neg (by omega : ¬((0 : Int) - (p.flowStart : Int) > p.maxDuration))]
    rw [if_pos hcond]
    cases j with
    | zero =>
      rw [if_pos ⟨hu, by simpa using hPj⟩]
    | succ j' =>
      have h0 : (findElementsText (es s.cCount) (p.untilFound.getD "")).length = 0 := by
        simpa using hfirst 0 (Nat.succ_pos j')
      rw [if_neg (fun hcon => by omega)]
      rw [if_neg (by rw [hnu]; exact fun hcon => absurd hcon.1 (by decide))]
      have harith1 : ∀ i, s.cCount + 1 + i = s.cCount + (i + 1) := by omega
      refine congrArg Nat.succ (ih j' _ _ (Nat.lt_of_succ_lt_succ hj) ?_ ?_)
      · intro i hi
        show (findElementsText (es (s.cCount + 1 + i)) (p.untilFound.getD "")).length = 0
        rw [harith1 i]
        exact hfirst (i + 1) (Nat.succ_lt_succ hi)
      · show (findElementsText (es (s.cCount + 1 + j')) (p.untilFound.getD "")).length > 0
        rw [harith1 j']
        exact hPj

/-- Under a healthy backend, an `until_found` loop whose predicate never
holds performs exactly its full iteration budget (and hence stops at the
hard cap). -/
theorem runIters_untilFound_never (w : FlowWorld) (p : StepParams)
    (ts : Nat → String) (es : Nat → List UiElement)
    (hd : ∀ n, w.dispatch n = Except.ok (ts n))
    (hcap : ∀ n, w.capture n = Except.ok (es n))
    (hn : ∀ n, w.now n = 0)
    (hmd : 0 ≤ p.maxDuration)
    (hu : truthyOpt p.untilFound = true)
    (hnu : p.untilNotFound = none) :
    ∀ (r : Nat) (last : Option FlowStepResult) (s : FlowSt),
      (∀ i, i < r →
        (findElementsText (es (s.cCount + i)) (p.untilFound.getD "")).length = 0) →
      (runIters w p r last s).2.2 = r := by
  intro r
  induction r with
  | zero => intro last s _; rfl
  | succ r ih =>
    intro last s hnone
    have hcond : p.hasRepeatCondition = true := by
      simp [StepParams.hasRepeatCondition, hu]
    simp only [runIters, readNow, callTool, captureElements, hn, hd, hcap, Nat.cast_zero]
    rw [if_neg (by omega : ¬((0 : Int) - (p.flowStart : Int) > p.maxDuration))]
    rw [if_pos hcond]
    have h0 : (findElementsText (es s.cCount) (p.untilFound.getD "")).length = 0 := by
      simpa using hnone 0 (Nat.succ_pos r)
    rw [if_neg (fun hcon => by omega)]
    rw [if_neg (by rw [hnu]; exact fun hcon => absurd hcon.1 (by decide))]
    refine congrArg Nat.succ (ih _ _ ?_)
    intro i hi
    show (findElementsText (es (s.cCount + 1 + i)) (p.untilFound.getD "")).length = 0
    rw [(by omega : s.cCount + 1 + i = s.cCount + (i + 1))]
    exact hnone (i + 1) (Nat.succ_lt_succ hi)

/-- Under a healthy backend, an `until_not_found` loop performs exactly
`j + 1` attempts when the predicate element first disappears from the
capture after attempt `j`. -/
theorem runIters_untilNotFound_first_hit (w : FlowWorld) (p : StepParams)
    (ts : Nat → String) (es : Nat → List UiElement)
    (hd : ∀ n, w.dispatch n = Except.ok (ts n))
    (hcap : ∀ n, w.capture n = Except.ok (es n))
    (hn : ∀ n, w.now n = 0)
    (hmd : 0 ≤ p.maxDuration)
    (hu : p.untilFound = none)
    (hnu : truthyOpt p.untilNotFound = true) :
    ∀ (r j : Nat) (last : Option FlowStepResult) (s : FlowSt),
      j < r →
      (∀ i, i < j →
        (findElementsText (es (s.cCount + i)) (p.untilNotFound.getD "")).length ≠ 0) →
      (findElementsText (es (s.cCount + j)) (p.untilNotFound.getD "")).length = 0 →
      (runIters w p r last s).2.2 = j + 1 := by
  intro r
  induction r with
  | zero =>
    intro j last s hj
    exact absurd hj (Nat.not_lt_zero j)
  | succ r ih =>
    intro j last s hj hfirst hPj
    have hcond : p.hasRepeatCondition = true := by
      simp [StepParams.hasRepeatCondition, hnu]
    simp only [runIters, readNow, callTool, captureElements, hn, hd, hcap, Nat.cast_zero]
    rw [if_neg (by omega : ¬((0 : Int) - (p.flowStart : Int) > p.maxDuration))]
    rw [if_pos hcond]
    rw [if_neg (by rw [hu]; exact fun hcon => absurd hcon.1 (by decide))]
    cases j with
    | zero =>
      rw [if_pos ⟨hnu, by simpa using hPj⟩]
    | succ j' =>
      have h0 : (findElementsText (es s.cCount) (p.untilNotFound.getD "")).length ≠ 0 := by
        simpa using hfirst 0 (Nat.succ_pos j')
      rw [if_neg (fun hcon => h0 hcon.2)]
      have harith1 : ∀ i, s.cCount + 1 + i = s.cCount + (i + 1) := by omega
      refine congrArg Nat.succ (ih j' _ _ (Nat.lt_of_succ_lt_succ hj) ?_ ?_)
      · intro i hi
        show (findElementsText (es (s.cCount + 1 + i)) (p.untilNotFound.getD "")).length ≠ 0
        rw [harith1 i]
        exact hfirst (i + 1) (Nat.succ_lt_succ hi)
      · show (findElementsText (es (s.cCount + 1 + j')) (p.untilNotFound.getD "")).length = 0
        rw [harith1 j']
        exact hPj

/-- Under a healthy backend, an `until_not_found` loop whose predicate
element never disappears performs exactly its full iteration budget
(and hence stops at the hard cap). -/
theorem runIters_untilNotFound_never (w : FlowWorld) (p : StepParams)
    (ts : Nat → String) (es : Nat → List UiElement)
    (hd : ∀ n, w.dispatch n = Except.ok (ts n))
    (hcap : ∀ n, w.capture n = Except.ok (es n))
    (hn : ∀ n, w.now n = 0)
    (hmd : 0 ≤ p.maxDuration)
    (hu : p.untilFound = none)
    (hnu : truthyOpt p.untilNotFound = true) :
    ∀ (r : Nat) (last : Option FlowStepResult) (s : FlowSt),
      (∀ i, i < r →
        (findElementsText (es (s.cCount + i)) (p.untilNotFound.getD "")).length ≠ 0) →
      (runIters w p r last s).2.2 = r := by
  intro r
  induction r with
  | zero => intro last s _; rfl
  | succ r ih =>
    intro last s hnone
    have hcond : p.hasRepeatCondition = true := by
      simp [StepParams.hasRepeatCondition, hnu]
    simp only [runIters, readNow, callTool, captureElements, hn, hd, hcap, Nat.cast_zero]
    rw [if_neg (by omega : ¬((0 : Int) - (p.flowStart : Int) > p.maxDuration))]
    rw [if_pos hcond]
    rw [if_neg (by rw [hu]; exact fun hcon => absurd hcon.1 (by decide))]
    have h0 : (findElementsText (es s.cCount) (p.untilNotFound.getD "")).length ≠ 0 := by
      simpa using hnone 0 (Nat.succ_pos r)
    rw [if_neg (fun hcon => h0 hcon.2)]
    refine congrArg Nat.succ (ih _ _ ?_)
    intro i hi
    show (findElementsText (es (s.cCount + 1 + i)) (p.untilNotFound.getD "")).length ≠ 0
    rw [(by omega : s.cCount + 1 + i = s.cCount + (i + 1))]
    exact hnone (i + 1) (Nat.succ_lt_succ hi)

/-- C4: a repeated step is attempted at most `FLOW_MAX_REPEAT` = 10
times: the iteration budget of every step is ≤ 10 and the loop never
exceeds its budget; a requested fixed count above 10 is clamped to
exactly 10; an `until_found` loop (healthy backend, idle clock) stops
right after the first capture in which the predicate element appears,
or after 10 attempts when it never appears; and an `until_not_found`
loop stops right after the first capture from which the predicate
element has disappeared, or after 10 attempts when it never does. -/
theorem flow_repeat_hard_cap :
    (∀ step : FlowStep, (flowMaxIterations step).toNat ≤ 10) ∧
    (∀ (step : FlowStep) (rs : RepeatSpec) (t : Int),
       step.repeatSpec = some rs → rs.times = some t →
       flowHasRepeatCondition step = false → FLOW_MAX_REPEAT < t →
       flowMaxIterations step = FLOW_MAX_REPEAT) ∧
    (∀ (w : FlowWorld) (p : StepParams) (r : Nat) (last : Option FlowStepResult)
       (s : FlowSt), (runIters w p r last s).2.2 ≤ r) ∧
    (∀ (w : FlowWorld) (p : StepParams) (ts : Nat → String) (es : Nat → List UiElement),
       (∀ n, w.dispatch n = Except.ok (ts n)) →
       (∀ n, w.capture n = Except.ok (es n)) →
       (∀ n, w.now n = 0) →
       0 ≤ p.maxDuration →
       truthyOpt p.untilFound = true →
       p.untilNotFound = none →
       ∀ (r j : Nat) (last : Option FlowStepResult) (s : FlowSt),
         j < r →
         (∀ i, i < j →
           (findElementsText (es (s.cCount + i)) (p.untilFound.getD "")).length = 0) →
         (findElementsText (es (s.cCount + j)) (p.untilFound.getD "")).length > 0 →
         (runIters w p r last s).2.2 = j + 1) ∧
    (∀ (w : FlowWorld) (p : StepParams) (ts : Nat → String) (es : Nat → List UiElement),
       (∀ n, w.dispatch n = Except.ok (ts n)) →
       (∀ n, w.capture n = Except.ok (es n)) →
       (∀ n, w.now n = 0) →
       0 ≤ p.maxDuration →
       truthyOpt p.untilFound = true →
       p.untilNotFound = none →
       ∀ (r : Nat) (last : Option FlowStepResult) (s : FlowSt),
         (∀ i, i < r →
           (findElementsText (es (s.cCount + i)) (p.untilFound.getD "")).length = 0) →
         (runIters w p r last s).2.2 = r) ∧
    (∀ (w : FlowWorld) (p : StepParams) (ts : Nat → String) (es : Nat → List UiElement),
       (∀ n, w.dispatch n = Except.ok (ts n)) →
       (∀ n, w.capture n = Except.ok (es n)) →
       (∀ n, w.now n = 0) →
       0 ≤ p.maxDuration →
       p.untilFound = none →
       truthyOpt p.untilNotFound = true →
       ∀ (r j : Nat) (last : Option FlowStepResult) (s : FlowSt),
         j < r →
         (∀ i, i < j →
           (findElementsText (es (s.cCount + i)) (p.untilNotFound.getD "")).length ≠ 0) →
         (findElementsText (es (s.cCount + j)) (p.untilNotFound.getD "")).length = 0 →
         (runIters w p r last s).2.2 = j + 1) ∧
    (∀ (w : FlowWorld) (p : StepParams) (ts : Nat → String) (es : Nat → List UiElement),
       (∀ n, w.dispatch n = Except.ok (ts n)) →
       (∀ n, w.capture n = Except.ok (es n)) →
       (∀ n, w.now n = 0) →
       0 ≤ p.maxDuration →
       p.untilFound = none →
       truthyOpt p.untilNotFound = true →
       ∀ (r : Nat) (last : Option FlowStepResult) (s : FlowSt),
         (∀ i, i < r →
           (findElementsText (es (s.cCount + i)) (p.untilNotFound.getD "")).length ≠ 0) →
         (runIters w p r last s).2.2 = r) := by
  refine ⟨flowMaxIterations_le_ten, ?_, runIters_attempts_le,
    runIters_untilFound_first_hit, runIters_untilFound_never,
    runIters_untilNotFound_first_hit, runIters_untilNotFound_never⟩
  intro step rs t hrs hts hcond hlt
  have hlt10 : (10 : Int) < t := hlt
  unfold flowMaxIterations
  rw [if_neg (by simp [hcond])]
  unfold flowRepeatTimes
  rw [hrs]
  dsimp only
  rw [hts]
  dsimp only
  rw [if_pos (by omega : t ≠ 0)]
  exact min_eq_right (le_of_lt hlt10)

/-- A world whose captures show the "Ready" element only from the third
capture on. -/
def untilFoundWorld : FlowWorld :=
  ⟨fun _ => Except.ok "tapped",
   fun n => Except.ok (if n = 2 then [⟨"Ready"⟩] else []),
   fun _ => 0, some "android"⟩

/-- Step parameters of a `repeat: {until_found: "ready"}` tap step. -/
def untilFoundParams : StepParams :=
  ⟨0, "tap", none, [("platform", AVal.str "android")], none, OnError.stop,
   some "ready", none, some "android", 0, 0, 30000⟩

/-- A world whose captures never show any element. -/
def emptyCaptureWorld : FlowWorld :=
  ⟨fun _ => Except.ok "tapped", fun _ => Except.ok [], fun _ => 0, some "android"⟩

/-- A world whose captures show the "Loading" element only in the first
two captures. -/
def untilNotFoundWorld : FlowWorld :=
  ⟨fun _ => Except.ok "tapped",
   fun n => Except.ok (if n < 2 then [⟨"Loading"⟩] else []),
   fun _ => 0, some "android"⟩

/-- Step parameters of a `repeat: {until_not_found: "loading"}` tap
step. -/
def untilNotFoundParams : StepParams :=
  ⟨0, "tap", none, [("platform", AVal.str "android")], none, OnError.stop,
   none, some "loading", some "android", 0, 0, 30000⟩

/-- A world whose captures always show the "Loading" element. -/
def loadingForeverWorld : FlowWorld :=
  ⟨fun _ => Except.ok "tapped", fun _ => Except.ok [⟨"Loading"⟩],
   fun _ => 0, some "android"⟩

/-- Witness for `flow_repeat_hard_cap`: a requested count of 25 is
clamped to 10; the until-found loop stops after 3 attempts when "Ready"
first appears in the third capture, and runs all 10 when it never
appears; the until-not-found loop stops after 3 attempts when "Loading"
first disappears in the third capture, and runs all 10 when it never
disappears. -/
theorem flow_repeat_hard_cap_witness :
    flowMaxIterations ⟨"tap", [], none, some ⟨some 25, none, none⟩, none, none⟩ =
      FLOW_MAX_REPEAT ∧
    (runIters untilFoundWorld untilFoundParams 10 none initFlowSt).2.2 = 3 ∧
    (runIters emptyCaptureWorld untilFoundParams 10 none initFlowSt).2.2 = 10 ∧
    (runIters untilNotFoundWorld untilNotFoundParams 10 none initFlowSt).2.2 = 3 ∧
    (runIters loadingForeverWorld untilNotFoundParams 10 none initFlowSt).2.2 = 10 :=
  ⟨flow_repeat_hard_cap.2.1 ⟨"tap", [], none, some ⟨some 25, none, none⟩, none, none⟩
      ⟨some 25, none, none⟩ 25 rfl rfl (by decide) (by decide),
   flow_repeat_hard_cap.2.2.2.1 untilFoundWorld untilFoundParams (fun _ => "tapped")
     (fun n => if n = 2 then [⟨"Ready"⟩] else []) (fun _ => rfl) (fun _ => rfl) (fun _ => rfl)
     (by decide) (by decide) rfl 10 2 none initFlowSt (by decide) (by decide) (by decide),
   flow_repeat_hard_cap.2.2.2.2.1 emptyCaptureWorld untilFoundParams (fun _ => "tapped")
     (fun _ => []) (fun _ => rfl) (fun _ => rfl) (fun _ => rfl)
     (by decide) (by decide) rfl 10 none initFlowSt (by decide),
   flow_repeat_hard_cap.2.2.2.2.2.1 untilNotFoundWorld untilNotFoundParams
     (fun _ => "tapped") (fun n => if n < 2 then [⟨"Loading"⟩] else [])
     (fun _ => rfl) (fun _ => rfl) (fun _ => rfl)
     (by decide) rfl (by decide) 10 2 none initFlowSt (by decide) (by decide) (by decide),
   flow_repeat_hard_cap.2.2.2.2.2.2 loadingForeverWorld untilNotFoundParams
     (fun _ => "tapped") (fun _ => [⟨"Loading"⟩])
     (fun _ => rfl) (fun _ => rfl) (fun _ => rfl)
     (by decide) rfl (by decide) 10 none initFlowSt (by decide)⟩

/-- A world where the first dispatch fails with an element-not-found
message and every later dispatch succeeds. -/
def notFoundWorld : FlowWorld :=
  ⟨fun n => if n = 0 then Except.error (ToolError.failure "Element not found: Submit")
    else Except.ok "Waited 50ms",
   fun _ => Except.ok [], fun _ => 0, some "android"⟩

/-- The scenario flow: `{action:"tap", args:{text:"Submit"},
if_not_found:"skip"}` followed by a `wait` step. -/
def skipFlow : RunFlowArgs :=
  ⟨none, [⟨"tap", [("text", AVal.str "Submit")], some IfNotFound.skip, none, none, none⟩,
          ⟨"wait", [("ms", AVal.num 50)], none, none, none, none⟩], none⟩

set_option maxRecDepth 8000 in
/-- C5: when a step fails with an element-not-found message and
`if_not_found` is set: `skip` records a synthetic success with the
explanatory message and dispatches nothing further; `scroll_down` /
`scroll_up` issue exactly one directional swipe (`up` resp. `down`),
retry the original step exactly once with the same `stepArgs`, and
record whichever outcome the retry produces; and in the scenario flow
the skipped step is followed by normal execution of the next step. -/
theorem flow_not_found_fallback :
    (∀ (w : FlowWorld) (p : StepParams) (e : ToolError) (stepStart remaining : Nat)
       (s : FlowSt),
       isNotFoundMessage e.message = true →
       p.ifNotFound = some IfNotFound.skip →
       stepCatch w p e stepStart remaining s =
         (CatchOut.exitLoop (IterExit.finished (some
           ⟨p.index + 1, p.action, p.label, true, "Skipped (element not found)",
            (w.now s.tCount : Int) - (stepStart : Int)⟩)),
          { s with tCount := s.tCount + 1 })) ∧
    (∀ (w : FlowWorld) (p : StepParams) (e : ToolError) (stepStart remaining : Nat)
       (s : FlowSt) (swText rt : String),
       isNotFoundMessage e.message = true →
       p.ifNotFound = some IfNotFound.scrollDown →
       w.dispatch s.dCount = Except.ok swText →
       w.dispatch (s.dCount + 1) = Except.ok rt →
       stepCatch w p e stepStart remaining s =
         (CatchOut.exitLoop (IterExit.finished (some
           ⟨p.index + 1, p.action, p.label, true,
            rt.take 150 ++ " (after scroll_down)",
            (w.now (s.tCount + 1) : Int) - (stepStart : Int)⟩)),
          ⟨s.dCount + 1 + 1, s.cCount, s.tCount + 1 + 1,
           s.calls ++ [⟨"swipe", [("direction", AVal.str "up"), ("platform", pval p.platform)],
             p.depth + 1⟩] ++ [⟨p.action, p.stepArgs, p.depth + 1⟩]⟩)) ∧
    (∀ (w : FlowWorld) (p : StepParams) (e : ToolError) (stepStart remaining : Nat)
       (s : FlowSt) (swText : String) (re : ToolError),
       isNotFoundMessage e.message = true →
       p.ifNotFound = some IfNotFound.scrollDown →
       w.dispatch s.dCount = Except.ok swText →
       w.dispatch (s.dCount + 1) = Except.error re →
       stepCatch w p e stepStart remaining s =
         (CatchOut.exitLoop (IterExit.finished (some
           ⟨p.index + 1, p.action, p.label, false,
            re.message ++ " (after scroll_down)",
            (w.now (s.tCount + 1) : Int) - (stepStart : Int)⟩)),
          ⟨s.dCount + 1 + 1, s.cCount, s.tCount + 1 + 1,
           s.calls ++ [⟨"swipe", [("direction", AVal.str "up"), ("platform", pval p.platform)],
             p.depth + 1⟩] ++ [⟨p.action, p.stepArgs, p.depth + 1⟩]⟩)) ∧
    (∀ (w : FlowWorld) (p : StepParams) (e : ToolError) (stepStart remaining : Nat)
       (s : FlowSt) (swText rt : String),
       isNotFoundMessage e.message = true →
       p.ifNotFound = some IfNotFound.scrollUp →
       w.dispatch s.dCount = Except.ok swText →
       w.dispatch (s.dCount + 1) = Except.ok rt →
       stepCatch w p e stepStart remaining s =
         (CatchOut.exitLoop (IterExit.finished (some
           ⟨p.index + 1, p.action, p.label, true,
            rt.take 150 ++ " (after scroll_up)",
            (w.now (s.tCount + 1) : Int) - (stepStart : Int)⟩)),
          ⟨s.dCount + 1 + 1, s.cCount, s.tCount + 1 + 1,
           s.calls ++ [⟨"swipe", [("direction", AVal.str "down"), ("platform", pval p.platform)],
             p.depth + 1⟩] ++ [⟨p.action, p.stepArgs, p.depth + 1⟩]⟩)) ∧
    ((runFlow notFoundWorld skipFlow 0).results =
       [⟨1, "tap", none, true, "Skipped (element not found)", 0⟩,
        ⟨2, "wait", none, true, "Waited 50ms", 0⟩] ∧
     (runFlow notFoundWorld skipFlow 0).state.calls =
       [⟨"tap", [("text", AVal.str "Submit"), ("platform", AVal.str "android")], 1⟩,
        ⟨"wait", [("ms", AVal.num 50), ("platform", AVal.str "android")], 1⟩]) := by
  refine ⟨?_, ?_, ?_, ?_, rfl, rfl⟩
  · intro w p e stepStart remaining s hnf hinf
    simp [stepCatch, readNow, hinf, hnf]
  · intro w p e stepStart remaining s swText rt hnf hinf hsw hrt
    simp [stepCatch, readNow, callTool, hinf, hnf, hsw, hrt, IfNotFound.jsName, String.append_assoc]
  · intro w p e stepStart remaining s swText re hnf hinf hsw hre
    simp [stepCatch, readNow, callTool, hinf, hnf, hsw, hre, IfNotFound.jsName, String.append_assoc]
  · intro w p e stepStart remaining s swText rt hnf hinf hsw hrt
    simp [stepCatch, readNow, callTool, hinf, hnf, hsw, hrt, IfNotFound.jsName, String.append_assoc]

/-- Step parameters of the skip-fallback tap step. -/
def pSkip : StepParams :=
  ⟨0, "tap", none, [("text", AVal.str "Submit"), ("platform", AVal.str "android")],
   some IfNotFound.skip, OnError.stop, none, none, some "android", 0, 0, 30000⟩

/-- Step parameters of the scroll-down-fallback tap step. -/
def pScroll : StepParams :=
  ⟨0, "tap", none, [("text", AVal.str "Submit"), ("platform", AVal.str "android")],
   some IfNotFound.scrollDown, OnError.stop, none, none, some "android", 0, 0, 30000⟩

/-- Step parameters of the scroll-up-fallback tap step. -/
def pScrollUp : StepParams :=
  ⟨0, "tap", none, [("text", AVal.str "Submit"), ("platform", AVal.str "android")],
   some IfNotFound.scrollUp, OnError.stop, none, none, some "android", 0, 0, 30000⟩

/-- A world where the fallback swipe and the retry both succeed. -/
def scrollWorld : FlowWorld :=
  ⟨fun n => if n = 0 then Except.ok "Swiped up" else Except.ok "Tapped at (5, 6)",
   fun _ => Except.ok [], fun _ => 0, some "android"⟩

/-- A world where the fallback swipe succeeds but the retry fails
again. -/
def scrollFailWorld : FlowWorld :=
  ⟨fun n => if n = 0 then Except.ok "Swiped up"
    else Except.error (ToolError.failure "Element not found: Submit"),
   fun _ => Except.ok [], fun _ => 0, some "android"⟩

/-- Witness for `flow_not_found_fallback` at concrete worlds. -/
theorem flow_not_found_fallback_witness :
    stepCatch notFoundWorld pSkip (ToolError.failure "Element not found: Submit")
        0 0 initFlowSt =
      (CatchOut.exitLoop (IterExit.finished (some
        ⟨1, "tap", none, true, "Skipped (element not found)", 0⟩)), ⟨0, 0, 1, []⟩) ∧
    stepCatch scrollWorld pScroll (ToolError.failure "Element not found: Submit")
        0 0 initFlowSt =
      (CatchOut.exitLoop (IterExit.finished (some
        ⟨1, "tap", none, true, "Tapped at (5, 6)".take 150 ++ " (after scroll_down)", 0⟩)),
       ⟨2, 0, 2, [⟨"swipe", [("direction", AVal.str "up"), ("platform", AVal.str "android")], 1⟩,
         ⟨"tap", [("text", AVal.str "Submit"), ("platform", AVal.str "android")], 1⟩]⟩) ∧
    stepCatch scrollFailWorld pScroll (ToolError.failure "Element not found: Submit")
        0 0 initFlowSt =
      (CatchOut.exitLoop (IterExit.finished (some
        ⟨1, "tap", none, false, "Element not found: Submit" ++ " (after scroll_down)", 0⟩)),
       ⟨2, 0, 2, [⟨"swipe", [("direction", AVal.str "up"), ("platform", AVal.str "android")], 1⟩,
         ⟨"tap", [("text", AVal.str "Submit"), ("platform", AVal.str "android")], 1⟩]⟩) ∧
    stepCatch scrollWorld pScrollUp (ToolError.failure "Element not found: Submit")
        0 0 initFlowSt =
      (CatchOut.exitLoop (IterExit.finished (some
        ⟨1, "tap", none, true, "Tapped at (5, 6)".take 150 ++ " (after scroll_up)", 0⟩)),
       ⟨2, 0, 2, [⟨"swipe", [("direction", AVal.str "down"), ("platform", AVal.str "android")], 1⟩,
         ⟨"tap", [("text", AVal.str "Submit"), ("platform", AVal.str "android")], 1⟩]⟩) :=
  ⟨flow_not_found_fallback.1 notFoundWorld pSkip
     (ToolError.failure "Element not found: Submit") 0 0 initFlowSt (by decide) rfl,
   flow_not_found_fallback.2.1 scrollWorld pScroll
     (ToolError.failure "Element not found: Submit") 0 0 initFlowSt "Swiped up"
     "Tapped at (5, 6)" (by decide) rfl rfl rfl,
   flow_not_found_fallback.2.2.1 scrollFailWorld pScroll
     (ToolError.failure "Element not found: Submit") 0 0 initFlowSt "Swiped up"
     (ToolError.failure "Element not found: Submit") (by decide) rfl rfl rfl,
   flow_not_found_fallback.2.2.2.1 scrollWorld pScrollUp
     (ToolError.failure "Element not found: Submit") 0 0 initFlowSt "Swiped up"
     "Tapped at (5, 6)" (by decide) rfl rfl rfl⟩

end ClaudeMobile
